import Mathlib

/-!
Sampling engine of the trace agent: rate appliers and sampler policies.

Shallow embedding of `sampler/rate.go`, `sampler/prioritysampler.go`,
`sampler/scoresampler.go`, `sampler/servicesampler.go` and of the handlers of
`agent/receiver.go`.

Conventions of the embedding.

* `float64` rates are rationals (`ℚ`): every statement about products of rates
  is a statement in exact arithmetic.
* A pointer receiver or pointer argument that the Go code mutates (`root`, the
  registry, the core sampler) is passed in and returned explicitly.
* A Go `map[string]V` is a nil-able finite lookup: `none` is the nil map,
  `some f` a map whose entry at `k` is `f k`.  Reading a nil map yields the
  zero value, as in Go.
* `uint64` identifiers are natural numbers; the policies only compare them
  and hand them to the decision primitive.
-/

namespace Sampler

/-! ## Go maps -/

/-- A Go `map[string]V`; `none` is the nil map. -/
abbrev GoMap (V : Type) := Option (String → Option V)

/-- The two-valued read `v, ok := m[k]`. -/
def GoMap.lookup {V : Type} (m : GoMap V) (k : String) : Option V :=
  match m with
  | none => none
  | some f => f k

/-- The one-valued read `m[k]`, with `zero` the zero value of `V`. -/
def GoMap.index {V : Type} (zero : V) (m : GoMap V) (k : String) : V :=
  match m.lookup k with
  | some v => v
  | none => zero

/-- The write `m[k] = v` on a map that has been allocated when it was nil. -/
def GoMap.store {V : Type} (m : GoMap V) (k : String) (v : V) : GoMap V :=
  some (fun j => if j = k then some v else m.lookup j)

/-- The builtin `delete(m, k)`; deleting from a nil map is a no-op. -/
def GoMap.delete {V : Type} (m : GoMap V) (k : String) : GoMap V :=
  match m with
  | none => none
  | some f => some (fun j => if j = k then none else f j)

/-! ## Spans and traces (`model.Span`, `model.Trace`) -/

/-- The fields of `model.Span` that the sampler and its tests use.  The Go field
`Type` is called `SpanType` here. -/
structure Span where
  TraceID : Nat
  SpanID : Nat
  ParentID : Nat
  Start : Int
  Duration : Int
  Service : String
  SpanType : String
  Meta : GoMap String
  Metrics : GoMap ℚ

/-- `model.Trace` is a slice of spans. -/
abbrev Trace := List Span

/-- Signatures are `uint64` hashes. -/
abbrev Signature := Nat

/-- The constant `samplingPriorityKey` of `rate.go`. -/
def samplingPriorityKey : String := "_sampling_priority_v1"

/-- The metric key under which the cumulative applied rate is stored, as the
tests read it back (`root.Metrics["_sample_rate"]`). -/
def SampleRateMetricKey : String := "_sample_rate"

/-- Modelled from the spec: `GetTraceAppliedSampleRate` is not among the source
files.  It reads the cumulative applied rate recorded on the root span, which is
`1` when the metric is unset. -/
def GetTraceAppliedSampleRate (root : Span) : ℚ :=
  match root.Metrics.lookup SampleRateMetricKey with
  | some rate => rate
  | none => 1

/-- Modelled from the spec: `SetTraceAppliedSampleRate` is not among the source
files.  It records the cumulative applied rate on the root span, allocating the
metric map when it is nil (the agent test starts from a span without metrics). -/
def SetTraceAppliedSampleRate (root : Span) (sampleRate : ℚ) : Span :=
  { root with Metrics := root.Metrics.store SampleRateMetricKey sampleRate }

/-! ## The rate registry (`RateByService`) -/

/-- Modelled from the spec: the registry key, in the form `GetAll` exposes it,
`"service:S,env:E"`. -/
def byServiceKey (service env : String) : String :=
  "service:" ++ service ++ ",env:" ++ env

/-- Modelled from the spec: `RateByService` is not among the source files.  It is
a mapping from the key of a (service, env) pair to the last rate written for it.
Timestamps and the eviction sweep are not modelled. -/
structure RateByService where
  rates : String → Option ℚ

/-- Modelled from the spec: `NewRateByService`.  A new registry holds the default
entry `"service:,env:"` with rate `1`, as both tests observe through `GetAll`. -/
def NewRateByService : RateByService :=
  ⟨fun k => if k = byServiceKey "" "" then some 1 else none⟩

/-- Modelled from the spec: `set(service, env, rate)` overwrites the stored
rate. -/
def RateByService.Set (rbs : RateByService) (service env : String) (rate : ℚ) :
    RateByService :=
  ⟨fun k => if k = byServiceKey service env then some rate else rbs.rates k⟩

/-- Modelled from the spec: `get(service, env)`, defaulting to `1` if absent. -/
def RateByService.Get (rbs : RateByService) (service env : String) : ℚ :=
  match rbs.rates (byServiceKey service env) with
  | some rate => rate
  | none => 1

/-- Modelled from the spec: `getAll()`, the mapping of `"service:X,env:Y"` to
rate. -/
def RateByService.GetAll (rbs : RateByService) : String → Option ℚ :=
  rbs.rates

/-! ## Sample-rate appliers (`rate.go`) -/

/-- Outcome of `agentSampleRateApplier.ApplySampleRate`: the returned boolean
and the root span after the call. -/
structure AgentApplied where
  sampled : Bool
  root : Span

/-- `agentSampleRateApplier.ApplySampleRate` (`rate.go`, lines 22-30).  The
decision primitive `SampleByRate` is a parameter. -/
def agentSampleRateApplier.ApplySampleRate (SampleByRate : Nat → ℚ → Bool)
    (root : Span) (sampleRate : ℚ) : AgentApplied :=
  let initialRate := GetTraceAppliedSampleRate root
  let newRate := initialRate * sampleRate
  let root := SetTraceAppliedSampleRate root newRate
  let traceID := root.TraceID
  ⟨SampleByRate traceID newRate, root⟩

/-- Outcome of `clientSampleRateApplier.ApplySampleRate`: the returned boolean,
the root span and the registry after the call. -/
structure ClientApplied where
  sampled : Bool
  root : Span
  rates : RateByService

/-- `clientSampleRateApplier.ApplySampleRate` (`rate.go`, lines 41-59); `rates`
is the field `csra.rates`. -/
def clientSampleRateApplier.ApplySampleRate (rates : RateByService)
    (root : Span) (sampleRate : ℚ) : ClientApplied :=
  let initialRate := GetTraceAppliedSampleRate root
  let newRate := initialRate * sampleRate
  let root := SetTraceAppliedSampleRate root newRate
  let rates :=
    if root.ParentID = 0 then
      let env := GoMap.index "" root.Meta "env"
      rates.Set root.Service env newRate
    else rates
  ⟨decide (GoMap.index (0 : ℚ) root.Metrics samplingPriorityKey > 0), root, rates⟩

/-- The root span of `TestAgentApplySampleRate`, for a trace identifier `tID`. -/
def agentTestRoot (tID : Nat) : Span :=
  { TraceID := tID, SpanID := 1, ParentID := 0, Start := 123, Duration := 100000,
    Service := "mcnulty", SpanType := "web", Meta := none, Metrics := none }

/-- The root span of `TestClientApplySampleRate` and of
`TestUpdateSampleRateForPriority`, for a trace identifier `tID`. -/
def clientTestRoot (tID : Nat) : Span :=
  { TraceID := tID, SpanID := 1, ParentID := 0, Start := 123, Duration := 100000,
    Service := "mcnulty", SpanType := "web", Meta := none,
    Metrics := some (fun k => if k = "_sampling_priority_v1" then some 1 else none) }

/-- The statement `delete(root.Metrics, "_sampling_priority_v1")` that both
tests run between their two calls. -/
def deletePriority (root : Span) : Span :=
  { root with Metrics := root.Metrics.delete "_sampling_priority_v1" }

/-- A root span whose string tag `_sampling_priority_v1` is `"1"`, for a trace
identifier `tID`. -/
def priorityTagRoot (tID : Nat) : Span :=
  { TraceID := tID, SpanID := 1, ParentID := 0, Start := 42, Duration := 1000000,
    Service := "service-a", SpanType := "web",
    Meta := some (fun k => if k = "_sampling_priority_v1" then some "1" else none),
    Metrics := none }

/-! ## The core sampler, as the policies use it -/

/-- The collaborators of the three policies that are not among the source files,
taken as parameters: the operations of `coreSampler` and of its `Backend` on a
core-sampler state `C`, the decision primitive `SampleByRate`, and the two
signature computers.  `GetSampleRate` and `GetMaxTPSSampleRate` read the state
and leave it as it is. -/
structure Deps (C : Type) where
  CountSignature : C → Signature → C
  CountSample : C → C
  GetSampleRate : C → Trace → Span → Signature → ℚ
  GetMaxTPSSampleRate : C → ℚ
  SampleByRate : Nat → ℚ → Bool
  computeServiceSignature : Span → String → Signature
  computeSignatureWithRootAndEnv : Trace → Span → String → Signature

/-- Outcome of a `Sample` call on a sampler of type `S`: the returned boolean,
the sampler after the call and the root span after the call. -/
structure Sampled (S : Type) where
  sampled : Bool
  s : S
  root : Span

/-! ## The priority policy (`prioritysampler.go`) -/

/-- `PrioritySampler`: the core sampler and the shared registry. -/
structure PrioritySampler (C : Type) where
  sampler : C
  rates : RateByService

/-- `updateSampleRateForPriority` (`prioritysampler.go`, lines 50-60): returns
the root span and the registry after the call. -/
def updateSampleRateForPriority (root : Span) (sampleRate : ℚ)
    (rates : RateByService) : Span × RateByService :=
  let initialRate := GetTraceAppliedSampleRate root
  let newRate := initialRate * sampleRate
  let root := SetTraceAppliedSampleRate root newRate
  let env : String :=
    match root.Meta with
    | some _ => GoMap.index "" root.Meta "env"
    | none => ""
  (root, rates.Set root.Service env newRate)

/-- `PrioritySampler.Sample` (`prioritysampler.go`, lines 62-96). -/
def PrioritySampler.Sample {C : Type} (d : Deps C) (s : PrioritySampler C)
    (trace : Trace) (root : Span) (env : String) : Sampled (PrioritySampler C) :=
  if trace.length = 0 then
    ⟨false, s, root⟩
  else
    let sampled := decide (GoMap.index (0 : ℚ) root.Metrics samplingPriorityKey > 0)
    let signature := d.computeServiceSignature root env
    let core := d.CountSignature s.sampler signature
    let sampleRate := d.GetSampleRate core trace root signature
    let upd := updateSampleRateForPriority root sampleRate s.rates
    if sampled then
      let core := d.CountSample core
      let maxTPSrate := d.GetMaxTPSSampleRate core
      if maxTPSrate < 1 then
        let upd := updateSampleRateForPriority upd.1 sampleRate upd.2
        ⟨sampled, ⟨core, upd.2⟩, upd.1⟩
      else
        ⟨sampled, ⟨core, upd.2⟩, upd.1⟩
    else
      ⟨sampled, ⟨core, upd.2⟩, upd.1⟩

/-- The local `sampleRate` of `PrioritySampler.Sample`: the rate the core
sampler returns for the service signature, once that signature is counted. -/
def PrioritySampler.sampleRate {C : Type} (d : Deps C) (s : PrioritySampler C)
    (trace : Trace) (root : Span) (env : String) : ℚ :=
  d.GetSampleRate (d.CountSignature s.sampler (d.computeServiceSignature root env))
    trace root (d.computeServiceSignature root env)

/-- The local `maxTPSrate` of `PrioritySampler.Sample`: the throttling rate the
core sampler returns once the signature and the sample are counted. -/
def PrioritySampler.maxTPSrate {C : Type} (d : Deps C) (s : PrioritySampler C)
    (root : Span) (env : String) : ℚ :=
  d.GetMaxTPSSampleRate
    (d.CountSample (d.CountSignature s.sampler (d.computeServiceSignature root env)))

/-- The env under which `updateSampleRateForPriority` files a root span: its
`env` tag, or the empty string when the tag or the `Meta` map is absent. -/
def rootEnv (root : Span) : String :=
  match root.Meta with
  | none => ""
  | some tags =>
    match tags "env" with
    | none => ""
    | some env => env

/-! ## The score policy (`scoresampler.go`) -/

/-- `ScoreSampler`: the core sampler. -/
structure ScoreSampler (C : Type) where
  sampler : C

/-- `applySampleRate` (`scoresampler.go`, lines 44-52): the returned boolean
and the root span after the call. -/
def applySampleRate (SampleByRate : Nat → ℚ → Bool) (root : Span)
    (sampleRate : ℚ) : Bool × Span :=
  let initialRate := GetTraceAppliedSampleRate root
  let newRate := initialRate * sampleRate
  let root := SetTraceAppliedSampleRate root newRate
  let traceID := root.TraceID
  (SampleByRate traceID newRate, root)

/-- `ScoreSampler.Sample` (`scoresampler.go`, lines 54-84). -/
def ScoreSampler.Sample {C : Type} (d : Deps C) (s : ScoreSampler C)
    (trace : Trace) (root : Span) (env : String) : Sampled (ScoreSampler C) :=
  if trace.length = 0 then
    ⟨false, s, root⟩
  else
    let signature := d.computeSignatureWithRootAndEnv trace root env
    let core := d.CountSignature s.sampler signature
    let sampleRate := d.GetSampleRate core trace root signature
    let applied := applySampleRate d.SampleByRate root sampleRate
    if applied.1 then
      let core := d.CountSample core
      let maxTPSrate := d.GetMaxTPSSampleRate core
      if maxTPSrate < 1 then
        let applied := applySampleRate d.SampleByRate applied.2 maxTPSrate
        ⟨applied.1, ⟨core⟩, applied.2⟩
      else
        ⟨applied.1, ⟨core⟩, applied.2⟩
    else
      ⟨applied.1, ⟨core⟩, applied.2⟩

/-! ## The service policy (`servicesampler.go`) -/

/-- The width of Go's `int` on the platforms the agent is built for. -/
def intSize : Nat := 64

/-- An ASCII decimal digit. -/
def isDecimalDigit (c : Char) : Bool :=
  decide ('0'.toNat ≤ c.toNat) && decide (c.toNat ≤ '9'.toNat)

/-- The value of a string of decimal digits, most significant digit first. -/
def decimalValue (ds : List Char) : Nat :=
  ds.foldl (fun n c => n * 10 + (c.toNat - '0'.toNat)) 0

/-- Go's `strconv.Atoi`: an optional sign followed by at least one decimal
digit, with a value that fits a signed integer of `intSize` bits.  `none` stands
for a non-nil error (syntax or range), which the caller does not tell apart. -/
def Atoi (s : String) : Option Int :=
  match s.toList with
  | [] => none
  | c :: cs =>
    let neg : Bool := c == '-'
    let ds : List Char := if c == '+' || c == '-' then cs else c :: cs
    if ds.isEmpty then none
    else if !ds.all isDecimalDigit then none
    else
      let un := decimalValue ds
      if !neg && decide (un ≥ 2 ^ (intSize - 1)) then none
      else if neg && decide (un > 2 ^ (intSize - 1)) then none
      else if neg then some (-(un : Int)) else some (un : Int)

/-- `ServiceSampler`: the registry it exposes and the sampler it wraps.  The
wrapped sampler is a `*ScoreSampler`, whose `Sample` is the one of
`scoresampler.go`; its constructor is not among the source files. -/
structure ServiceSampler (C : Type) where
  Rates : RateByService
  sampler : ScoreSampler C

/-- `ServiceSampler.Sample` (`servicesampler.go`, lines 27-36): the trace is
piped through the wrapped sampler, whose answer is dropped, and the decision is
read from the string tag of the root. -/
def ServiceSampler.Sample {C : Type} (d : Deps C) (ss : ServiceSampler C)
    (trace : Trace) (root : Span) (env : String) : Sampled (ServiceSampler C) :=
  let inner := ScoreSampler.Sample d ss.sampler trace root env
  let root := inner.root
  match Atoi (GoMap.index "" root.Meta samplingPriorityKey) with
  | some samplingPriority =>
    ⟨decide (samplingPriority > 0), { ss with sampler := inner.s }, root⟩
  | none =>
    ⟨false, { ss with sampler := inner.s }, root⟩

/-! ## A concrete core sampler, to run the policies on explicit inputs -/

/-- Modelled from the spec: the state of the decay-score backend, a score per
signature and the aggregate score of the retained traces. -/
structure Backend where
  scores : Signature → ℚ
  sampledScore : ℚ

/-- Modelled from the spec: `countSignature(sig)` increments the bucket for
`sig` by 1. -/
def Backend.CountSignature (b : Backend) (sig : Signature) : Backend :=
  { b with scores := fun k => if k = sig then b.scores k + 1 else b.scores k }

/-- Modelled from the spec: `countSample()` increments the aggregate retained
score by 1. -/
def Backend.CountSample (b : Backend) : Backend :=
  { b with sampledScore := b.sampledScore + 1 }

/-- A backend that has seen no trace. -/
def Backend.empty : Backend := ⟨fun _ => 0, 0⟩

/-- Modelled from the spec: `sampleByRate(traceID, rate)` hashes the identifier
into the `uint64` range and compares it with the rate scaled to that range; a
rate of `1` or more always accepts. -/
def SampleByRate (traceID : Nat) (sampleRate : ℚ) : Bool :=
  if sampleRate < 1 then
    decide (((traceID * 1111111111111111111 % 2 ^ 64 : Nat) : ℚ) < sampleRate * 2 ^ 64)
  else true

/-- A core sampler over the backend above whose rate curve yields `rate` and
whose max-TPS throttle yields `maxTPSrate` for the trace at hand; the service
signature is taken from the lengths of the service and env names, the full
signature adds the number of spans. -/
def fixedRateDeps (rate maxTPSrate : ℚ) : Deps Backend :=
  { CountSignature := Backend.CountSignature
    CountSample := Backend.CountSample
    GetSampleRate := fun _ _ _ _ => rate
    GetMaxTPSSampleRate := fun _ => maxTPSrate
    SampleByRate := SampleByRate
    computeServiceSignature := fun root env => root.Service.length + env.length
    computeSignatureWithRootAndEnv := fun trace root env =>
      root.Service.length + env.length + trace.length }

/-- The local `sampleRate` of `ScoreSampler.Sample`: the rate the core sampler
returns for the full signature, once that signature is counted. -/
def ScoreSampler.sampleRate {C : Type} (d : Deps C) (s : ScoreSampler C)
    (trace : Trace) (root : Span) (env : String) : ℚ :=
  d.GetSampleRate
    (d.CountSignature s.sampler (d.computeSignatureWithRootAndEnv trace root env))
    trace root (d.computeSignatureWithRootAndEnv trace root env)

/-- The local `maxTPSrate` of `ScoreSampler.Sample`: the throttling rate the
core sampler returns once the signature and the sample are counted. -/
def ScoreSampler.maxTPSrate {C : Type} (d : Deps C) (s : ScoreSampler C)
    (trace : Trace) (root : Span) (env : String) : ℚ :=
  d.GetMaxTPSSampleRate
    (d.CountSample
      (d.CountSignature s.sampler (d.computeSignatureWithRootAndEnv trace root env)))

/-! ## Recording the calls made on the backend -/

/-- A call of one of the two mutating operations of the backend. -/
inductive BackendCall where
  | countSignature (signature : Signature)
  | countSample
  deriving DecidableEq

/-- The signature of a `CountSignature` call. -/
def BackendCall.signature? : BackendCall → Option Signature
  | .countSignature signature => some signature
  | .countSample => none

/-- Whether the call is a `CountSample` call. -/
def BackendCall.isCountSample : BackendCall → Bool
  | .countSignature _ => false
  | .countSample => true

/-- The signatures of the `CountSignature` calls of a log, in order. -/
def countedSignatures (log : List BackendCall) : List Signature :=
  log.filterMap BackendCall.signature?

/-- The number of `CountSample` calls of a log. -/
def countedSamples (log : List BackendCall) : Nat :=
  (log.filter BackendCall.isCountSample).length

/-- The core sampler `d` with a log attached to its state: every `CountSignature`
and `CountSample` call is appended to the log and otherwise done by `d`; the two
rate getters, the decision primitive and the signature computers are those of
`d`. -/
def recordingDeps {C : Type} (d : Deps C) : Deps (C × List BackendCall) :=
  { CountSignature := fun c signature =>
      (d.CountSignature c.1 signature, c.2 ++ [BackendCall.countSignature signature])
    CountSample := fun c => (d.CountSample c.1, c.2 ++ [BackendCall.countSample])
    GetSampleRate := fun c => d.GetSampleRate c.1
    GetMaxTPSSampleRate := fun c => d.GetMaxTPSSampleRate c.1
    SampleByRate := d.SampleByRate
    computeServiceSignature := d.computeServiceSignature
    computeSignatureWithRootAndEnv := d.computeSignatureWithRootAndEnv }

/-! ## Sequences of rate applications -/

/-- One call of a function that applies a rate to a root span: the two appliers
of `rate.go`, `applySampleRate` of `scoresampler.go` and
`updateSampleRateForPriority` of `prioritysampler.go`. -/
inductive RateCall where
  | agent (sampleRate : ℚ)
  | client (sampleRate : ℚ)
  | score (sampleRate : ℚ)
  | priority (sampleRate : ℚ)

/-- The rate a call applies. -/
def RateCall.sampleRate : RateCall → ℚ
  | .agent r => r
  | .client r => r
  | .score r => r
  | .priority r => r

/-- The root span and the registry after one call. -/
def RateCall.run (SampleByRate : Nat → ℚ → Bool) (c : RateCall)
    (st : Span × RateByService) : Span × RateByService :=
  match c with
  | .agent r => ((agentSampleRateApplier.ApplySampleRate SampleByRate st.1 r).root, st.2)
  | .client r =>
    ((clientSampleRateApplier.ApplySampleRate st.2 st.1 r).root,
      (clientSampleRateApplier.ApplySampleRate st.2 st.1 r).rates)
  | .score r => ((applySampleRate SampleByRate st.1 r).2, st.2)
  | .priority r => updateSampleRateForPriority st.1 r st.2

/-- The root span and the registry after a sequence of calls on the same root. -/
def runCalls (SampleByRate : Nat → ℚ → Bool) (cs : List RateCall)
    (st : Span × RateByService) : Span × RateByService :=
  cs.foldl (fun st c => c.run SampleByRate st) st

/-! ## The trace behind the root pointer -/

/-- The spans of a trace after a call whose `root` argument points at
`trace[i]`: the functions of the sampler write through `root` only, so the span
at `i` is the root after the call and no other position is assigned. -/
def traceAfter (trace : Trace) (i : Nat) (rootAfter : Span) : Trace :=
  trace.set i rootAfter

/-- A local root of a distributed trace: the span of the priority test with a
non-zero `ParentID`. -/
def localRoot (tID : Nat) : Span :=
  { TraceID := tID, SpanID := 2, ParentID := 1, Start := 123, Duration := 100000,
    Service := "mcnulty", SpanType := "web", Meta := none,
    Metrics := some (fun k => if k = "_sampling_priority_v1" then some 1 else none) }

/-! ## The HTTP receiver (`agent/receiver.go`) -/

/-- The collaborators of the handlers that are not among the source files, taken
as parameters: reading the request body (`ioutil.ReadAll`), decoding it
(`json.Unmarshal` into a span or into a slice of spans) and `Span.Normalize`,
which returns the span as it leaves it and its error, `none` for `nil`. -/
structure ReceiverDeps (Request Bytes Err : Type) where
  ReadAll : Request → Except Err Bytes
  UnmarshalSpan : Bytes → Except Err Span
  UnmarshalSpans : Bytes → Except Err (List Span)
  Normalize : Span → Span × Option Err

/-- What a handler does with a request: the status written to the response and
the spans sent on `l.out`, in order.  Logging and the statsd counters are not
modelled. -/
structure Handled where
  status : Nat
  out : List Span

/-- `HTTPReceiver.handleSpan` (`receiver.go`, lines 66-90). -/
def HTTPReceiver.handleSpan {Request Bytes Err : Type}
    (d : ReceiverDeps Request Bytes Err) (r : Request) : Handled :=
  match d.ReadAll r with
  | .error _ => ⟨500, []⟩
  | .ok body =>
    match d.UnmarshalSpan body with
    | .error _ => ⟨500, []⟩
    | .ok s =>
      let s := (d.Normalize s).1
      ⟨200, [s]⟩

/-- The loop of `handleSpans` (`receiver.go`, lines 118-128): the spans sent on
`l.out`. -/
def HTTPReceiver.forwardSpans {Request Bytes Err : Type}
    (d : ReceiverDeps Request Bytes Err) : List Span → List Span
  | [] => []
  | s :: spans =>
    match d.Normalize s with
    | (_, some _) => HTTPReceiver.forwardSpans d spans
    | (s, none) => s :: HTTPReceiver.forwardSpans d spans

/-- `HTTPReceiver.handleSpans` (`receiver.go`, lines 92-129). -/
def HTTPReceiver.handleSpans {Request Bytes Err : Type}
    (d : ReceiverDeps Request Bytes Err) (r : Request) : Handled :=
  match d.ReadAll r with
  | .error _ => ⟨500, []⟩
  | .ok body =>
    match d.UnmarshalSpans body with
    | .error _ => ⟨500, []⟩
    | .ok spans => ⟨200, HTTPReceiver.forwardSpans d spans⟩

/-- A receiver whose request is the decoded payload itself (one span for
`/span`, a list for `/spans`) and whose `Normalize` rejects a span with an empty
service name and leaves the others as they are. -/
def strictDeps : ReceiverDeps (List Span) (List Span) String :=
  { ReadAll := fun r => .ok r
    UnmarshalSpan := fun body =>
      match body with
      | [s] => .ok s
      | _ => .error "json: cannot unmarshal"
    UnmarshalSpans := fun body => .ok body
    Normalize := fun s => if s.Service = "" then (s, some "empty service") else (s, none) }

/-- A span without a service name. -/
def unnamedSpan : Span :=
  { TraceID := 1, SpanID := 1, ParentID := 0, Start := 42, Duration := 1000000,
    Service := "", SpanType := "web", Meta := none, Metrics := none }

/-! ## What a call may change on a span -/

/-- The span `after` is the span `before` except possibly for its metric
`"_sample_rate"`: the identifiers, the timing, the service, the type and the
tags are the same, and so is every metric under another key. -/
def sameExceptRate (before after : Span) : Prop :=
  after.TraceID = before.TraceID ∧ after.SpanID = before.SpanID
    ∧ after.ParentID = before.ParentID ∧ after.Start = before.Start
    ∧ after.Duration = before.Duration ∧ after.Service = before.Service
    ∧ after.SpanType = before.SpanType ∧ after.Meta = before.Meta
    ∧ ∀ k : String, after.Metrics.lookup k
        = if k = "_sample_rate" then after.Metrics.lookup k else before.Metrics.lookup k

/-! ## Basic facts about the span metric helpers -/

theorem lookup_store_same {V : Type} (m : GoMap V) (k : String) (v : V) :
    (m.store k v).lookup k = some v := by
  simp [GoMap.store, GoMap.lookup]

theorem lookup_store_other {V : Type} (m : GoMap V) (k j : String) (v : V)
    (h : j ≠ k) : (m.store k v).lookup j = m.lookup j := by
  simp [GoMap.store, GoMap.lookup, h]

theorem get_set_rate (root : Span) (r : ℚ) :
    GetTraceAppliedSampleRate (SetTraceAppliedSampleRate root r) = r := by
  simp [GetTraceAppliedSampleRate, SetTraceAppliedSampleRate, lookup_store_same]

theorem metric_set_rate (root : Span) (r : ℚ) :
    (SetTraceAppliedSampleRate root r).Metrics.lookup SampleRateMetricKey = some r := by
  simp [SetTraceAppliedSampleRate, lookup_store_same]

theorem priority_key_ne : samplingPriorityKey ≠ SampleRateMetricKey := by
  decide

theorem priority_set_rate (root : Span) (r : ℚ) :
    GoMap.index (0 : ℚ) (SetTraceAppliedSampleRate root r).Metrics samplingPriorityKey
      = GoMap.index (0 : ℚ) root.Metrics samplingPriorityKey := by
  simp [GoMap.index, SetTraceAppliedSampleRate,
    lookup_store_other _ _ _ _ priority_key_ne]

theorem lookup_rate_delete_priority (root : Span) :
    (deletePriority root).Metrics.lookup SampleRateMetricKey
      = root.Metrics.lookup SampleRateMetricKey := by
  unfold deletePriority GoMap.delete GoMap.lookup
  cases h : root.Metrics with
  | none => rfl
  | some f =>
    have hne : SampleRateMetricKey ≠ "_sampling_priority_v1" := by decide
    simp [hne]

theorem get_rate_delete_priority (root : Span) :
    GetTraceAppliedSampleRate (deletePriority root) = GetTraceAppliedSampleRate root := by
  simp [GetTraceAppliedSampleRate, lookup_rate_delete_priority]

/-! ## The appliers of `rate.go` -/

theorem agent_apply_metric (sbr : Nat → ℚ → Bool) (root : Span) (r : ℚ) :
    (agentSampleRateApplier.ApplySampleRate sbr root r).root.Metrics.lookup
        SampleRateMetricKey = some (GetTraceAppliedSampleRate root * r) := by
  simp [agentSampleRateApplier.ApplySampleRate, metric_set_rate]

theorem agent_apply_rate (sbr : Nat → ℚ → Bool) (root : Span) (r : ℚ) :
    GetTraceAppliedSampleRate (agentSampleRateApplier.ApplySampleRate sbr root r).root
      = GetTraceAppliedSampleRate root * r := by
  simp [agentSampleRateApplier.ApplySampleRate, get_set_rate]

theorem client_apply_metric (rates : RateByService) (root : Span) (r : ℚ) :
    (clientSampleRateApplier.ApplySampleRate rates root r).root.Metrics.lookup
        SampleRateMetricKey = some (GetTraceAppliedSampleRate root * r) := by
  simp [clientSampleRateApplier.ApplySampleRate, metric_set_rate]

theorem client_apply_rate (rates : RateByService) (root : Span) (r : ℚ) :
    GetTraceAppliedSampleRate (clientSampleRateApplier.ApplySampleRate rates root r).root
      = GetTraceAppliedSampleRate root * r := by
  simp [clientSampleRateApplier.ApplySampleRate, get_set_rate]

theorem client_apply_rates (rates : RateByService) (root : Span) (r : ℚ) :
    (clientSampleRateApplier.ApplySampleRate rates root r).rates
      = if root.ParentID = 0 then
          rates.Set root.Service (GoMap.index "" root.Meta "env")
            (GetTraceAppliedSampleRate root * r)
        else rates := by
  simp [clientSampleRateApplier.ApplySampleRate, SetTraceAppliedSampleRate]

theorem agentTestRoot_rate (tID : Nat) :
    GetTraceAppliedSampleRate (agentTestRoot tID) = 1 := by
  simp [GetTraceAppliedSampleRate, agentTestRoot, GoMap.lookup]

theorem clientTestRoot_rate (tID : Nat) :
    GetTraceAppliedSampleRate (clientTestRoot tID) = 1 := by
  have hne : SampleRateMetricKey ≠ "_sampling_priority_v1" := by decide
  simp [GetTraceAppliedSampleRate, clientTestRoot, GoMap.lookup, hne]

/-- C1: cumulative-rate chaining.  For every root span with prior cumulative
rate `p` (`1` when the metric is unset) and all rates `r1`, `r2`, applying `r1`
and then `r2` with the agent applier, or with the client applier, leaves
`root.Metrics["_sample_rate"]` equal to `p * r1 * r2`; applying 0.4 and then 0.5
to the fresh root of either test stores 0.2. -/
theorem C1_cumulative_rate_chaining (sbr : Nat → ℚ → Bool) (rates : RateByService)
    (root : Span) (r1 r2 : ℚ) (tID : Nat) :
    (agentSampleRateApplier.ApplySampleRate sbr
        (agentSampleRateApplier.ApplySampleRate sbr root r1).root r2).root.Metrics.lookup
        SampleRateMetricKey = some (GetTraceAppliedSampleRate root * r1 * r2)
    ∧ (clientSampleRateApplier.ApplySampleRate
        (clientSampleRateApplier.ApplySampleRate rates root r1).rates
        (clientSampleRateApplier.ApplySampleRate rates root r1).root r2).root.Metrics.lookup
        SampleRateMetricKey = some (GetTraceAppliedSampleRate root * r1 * r2)
    ∧ (agentSampleRateApplier.ApplySampleRate sbr
        (agentSampleRateApplier.ApplySampleRate sbr (agentTestRoot tID) (2 / 5)).root
        (1 / 2)).root.Metrics.lookup "_sample_rate" = some (1 / 5)
    ∧ (clientSampleRateApplier.ApplySampleRate
        (clientSampleRateApplier.ApplySampleRate rates (clientTestRoot tID) (2 / 5)).rates
        (deletePriority
          (clientSampleRateApplier.ApplySampleRate rates (clientTestRoot tID) (2 / 5)).root)
        (1 / 2)).root.Metrics.lookup "_sample_rate" = some (1 / 5) := by
  refine ⟨?_, ?_, ?_, ?_⟩
  · rw [agent_apply_metric, agent_apply_rate]
  · rw [client_apply_metric, client_apply_rate]
  · have h := agent_apply_metric sbr
      (agentSampleRateApplier.ApplySampleRate sbr (agentTestRoot tID) (2 / 5)).root (1 / 2)
    rw [agent_apply_rate, agentTestRoot_rate] at h
    rw [show ("_sample_rate" : String) = SampleRateMetricKey from rfl, h]
    norm_num
  · have h := client_apply_metric
      (clientSampleRateApplier.ApplySampleRate rates (clientTestRoot tID) (2 / 5)).rates
      (deletePriority
        (clientSampleRateApplier.ApplySampleRate rates (clientTestRoot tID) (2 / 5)).root)
      (1 / 2)
    rw [get_rate_delete_priority, client_apply_rate, clientTestRoot_rate] at h
    rw [show ("_sample_rate" : String) = SampleRateMetricKey from rfl, h]
    norm_num

/-- C2: for every root span, rate and registry, the client applier returns true
exactly when `root.Metrics["_sampling_priority_v1"]` is present and strictly
positive (so false when the flag is absent or the metric map is nil); the
answer is a function of that one metric, not of the rate, the prior cumulative
rate or the registry. -/
theorem C2_client_decision_is_priority_flag (rates : RateByService) (root : Span)
    (sampleRate : ℚ) :
    ((clientSampleRateApplier.ApplySampleRate rates root sampleRate).sampled = true
      ↔ ∃ v, root.Metrics.lookup samplingPriorityKey = some v ∧ 0 < v)
    ∧ (clientSampleRateApplier.ApplySampleRate rates root sampleRate).sampled
      = decide (GoMap.index (0 : ℚ) root.Metrics "_sampling_priority_v1" > 0) := by
  have h : (clientSampleRateApplier.ApplySampleRate rates root sampleRate).sampled
      = decide (GoMap.index (0 : ℚ) root.Metrics samplingPriorityKey > 0) := by
    simp only [clientSampleRateApplier.ApplySampleRate, priority_set_rate]
  refine ⟨?_, h⟩
  rw [h]
  unfold GoMap.index
  cases hl : root.Metrics.lookup samplingPriorityKey with
  | none => simp
  | some v => simp

theorem mcnulty_key : byServiceKey "mcnulty" "" = "service:mcnulty,env:" := by
  decide

theorem default_key : byServiceKey "" "" = "service:,env:" := by
  decide

theorem default_key_ne_mcnulty : ("service:,env:" : String) ≠ "service:mcnulty,env:" := by
  decide

theorem clientTestRoot_applied (rates : RateByService) (tID : Nat) (r : ℚ) :
    (clientSampleRateApplier.ApplySampleRate rates (clientTestRoot tID) r).rates
      = rates.Set "mcnulty" "" r := by
  rw [client_apply_rates, clientTestRoot_rate]
  simp [clientTestRoot, GoMap.index, GoMap.lookup]

theorem clientTestRoot_reapplied (rates : RateByService) (tID : Nat) (r1 r2 : ℚ) :
    (clientSampleRateApplier.ApplySampleRate
        (clientSampleRateApplier.ApplySampleRate rates (clientTestRoot tID) r1).rates
        (deletePriority
          (clientSampleRateApplier.ApplySampleRate rates (clientTestRoot tID) r1).root)
        r2).rates
      = (rates.Set "mcnulty" "" r1).Set "mcnulty" "" (r1 * r2) := by
  rw [client_apply_rates, get_rate_delete_priority, client_apply_rate,
    clientTestRoot_rate, clientTestRoot_applied]
  simp [clientSampleRateApplier.ApplySampleRate, SetTraceAppliedSampleRate,
    deletePriority, clientTestRoot, GoMap.index, GoMap.lookup]

/-- C3: the run of `TestClientApplySampleRate`.  Applying 0.4 to the test root
writes 0.4 under `"service:mcnulty,env:"`; after the priority flag is deleted,
applying 0.5 to the same root leaves that entry at 0.2, the cumulative rate,
not at 0.5, the rate just applied, which is what the test asserts. -/
theorem C3_registry_entry_after_second_apply (tID : Nat) :
    (clientSampleRateApplier.ApplySampleRate NewRateByService
        (clientTestRoot tID) (2 / 5)).rates.GetAll "service:mcnulty,env:" = some (2 / 5)
    ∧ (clientSampleRateApplier.ApplySampleRate
        (clientSampleRateApplier.ApplySampleRate NewRateByService
          (clientTestRoot tID) (2 / 5)).rates
        (deletePriority
          (clientSampleRateApplier.ApplySampleRate NewRateByService
            (clientTestRoot tID) (2 / 5)).root)
        (1 / 2)).rates.GetAll "service:mcnulty,env:" = some (1 / 5)
    ∧ (clientSampleRateApplier.ApplySampleRate
        (clientSampleRateApplier.ApplySampleRate NewRateByService
          (clientTestRoot tID) (2 / 5)).rates
        (deletePriority
          (clientSampleRateApplier.ApplySampleRate NewRateByService
            (clientTestRoot tID) (2 / 5)).root)
        (1 / 2)).rates.GetAll "service:mcnulty,env:" ≠ some (1 / 2) := by
  rw [clientTestRoot_reapplied, clientTestRoot_applied]
  simp only [RateByService.GetAll, RateByService.Set, mcnulty_key]
  norm_num

/-- C4: the registry frame of the client applier.  For every registry, root span
and rate, the registry after the call is the registry before it when
`root.ParentID != 0`, and when `root.ParentID == 0` it is the registry before
the call except possibly at the one key of `(root.Service, root.Meta["env"])`,
where the env is the empty string when the tag or the `Meta` map is absent; in
both cases the cumulative metric of the root is multiplied by the rate. -/
theorem C4_client_registry_frame (rates : RateByService) (root : Span) (sampleRate : ℚ) :
    (clientSampleRateApplier.ApplySampleRate rates root sampleRate).rates.GetAll
      = (if root.ParentID = 0 then
          Function.update rates.GetAll
            (byServiceKey root.Service
              (match root.Meta with
                | none => ""
                | some tags =>
                  match tags "env" with
                  | none => ""
                  | some env => env))
            ((clientSampleRateApplier.ApplySampleRate rates root sampleRate).rates.GetAll
              (byServiceKey root.Service
                (match root.Meta with
                  | none => ""
                  | some tags =>
                    match tags "env" with
                    | none => ""
                    | some env => env)))
        else rates.GetAll)
    ∧ (clientSampleRateApplier.ApplySampleRate rates root sampleRate).root.Metrics.lookup
        "_sample_rate" = some (GetTraceAppliedSampleRate root * sampleRate) := by
  refine ⟨?_, client_apply_metric rates root sampleRate⟩
  have henv : GoMap.index "" root.Meta "env"
      = (match root.Meta with
          | none => ""
          | some tags =>
            match tags "env" with
            | none => ""
            | some env => env) := by
    unfold GoMap.index GoMap.lookup
    cases root.Meta with
    | none => rfl
    | some tags =>
      simp only []
      cases tags "env" with
      | none => rfl
      | some env => rfl
  rw [client_apply_rates, henv]
  by_cases hp : root.ParentID = 0
  · simp only [hp, if_true]
    funext k
    by_cases hk : k = byServiceKey root.Service
        (match root.Meta with
          | none => ""
          | some tags =>
            match tags "env" with
            | none => ""
            | some env => env)
    · subst hk
      simp [RateByService.GetAll, RateByService.Set]
    · simp [RateByService.GetAll, RateByService.Set, Function.update, hk]
  · simp only [hp, if_false]

/-! ## The priority policy -/

theorem update_metric (root : Span) (r : ℚ) (rates : RateByService) :
    (updateSampleRateForPriority root r rates).1.Metrics.lookup SampleRateMetricKey
      = some (GetTraceAppliedSampleRate root * r) := by
  simp [updateSampleRateForPriority, metric_set_rate]

theorem update_rate (root : Span) (r : ℚ) (rates : RateByService) :
    GetTraceAppliedSampleRate (updateSampleRateForPriority root r rates).1
      = GetTraceAppliedSampleRate root * r := by
  simp [updateSampleRateForPriority, get_set_rate]

theorem update_rates (root : Span) (r : ℚ) (rates : RateByService) :
    (updateSampleRateForPriority root r rates).2
      = rates.Set root.Service
          (match root.Meta with
            | none => ""
            | some tags =>
              match tags "env" with
              | none => ""
              | some env => env)
          (GetTraceAppliedSampleRate root * r) := by
  unfold updateSampleRateForPriority SetTraceAppliedSampleRate GoMap.index GoMap.lookup
  cases root.Meta with
  | none => rfl
  | some tags =>
    simp only []
    cases tags "env" with
    | none => rfl
    | some env => rfl

theorem update_service (root : Span) (r : ℚ) (rates : RateByService) :
    (updateSampleRateForPriority root r rates).1.Service = root.Service := rfl

theorem update_meta (root : Span) (r : ℚ) (rates : RateByService) :
    (updateSampleRateForPriority root r rates).1.Meta = root.Meta := rfl

theorem set_getAll_same (rates : RateByService) (service env : String) (r : ℚ) :
    (rates.Set service env r).GetAll (byServiceKey service env) = some r := by
  simp [RateByService.GetAll, RateByService.Set]

/-- C5: for every root span with prior cumulative rate `p` (`1` when unset),
every rate `r` and every registry, `updateSampleRateForPriority` sets
`root.Metrics["_sample_rate"]` to `p * r` and sets the registry entry of
`(root.Service, env)` to the same `p * r`, with `env` the tag `root.Meta["env"]`,
or the empty string when the tag or the map is absent, whatever the priority
flag of the root is; applying 0.4 and then 0.5 to the test root, with the flag
deleted in between, leaves the metric at 0.2 and the registry equal to
`"service:,env:"` at 1 and `"service:mcnulty,env:"` at 0.2. -/
theorem C5_update_sample_rate_for_priority (root : Span) (sampleRate : ℚ)
    (rates : RateByService) (tID : Nat) :
    (updateSampleRateForPriority root sampleRate rates).1.Metrics.lookup "_sample_rate"
      = some (GetTraceAppliedSampleRate root * sampleRate)
    ∧ (updateSampleRateForPriority root sampleRate rates).2.GetAll
        (byServiceKey root.Service
          (match root.Meta with
            | none => ""
            | some tags =>
              match tags "env" with
              | none => ""
              | some env => env))
      = some (GetTraceAppliedSampleRate root * sampleRate)
    ∧ (updateSampleRateForPriority
        (deletePriority
          (updateSampleRateForPriority (clientTestRoot tID) (2 / 5) NewRateByService).1)
        (1 / 2)
        (updateSampleRateForPriority (clientTestRoot tID) (2 / 5) NewRateByService).2
        ).1.Metrics.lookup "_sample_rate" = some (1 / 5)
    ∧ (updateSampleRateForPriority
        (deletePriority
          (updateSampleRateForPriority (clientTestRoot tID) (2 / 5) NewRateByService).1)
        (1 / 2)
        (updateSampleRateForPriority (clientTestRoot tID) (2 / 5) NewRateByService).2
        ).2.GetAll
      = (fun k =>
          if k = "service:mcnulty,env:" then some (1 / 5)
          else if k = "service:,env:" then some 1
          else none) := by
  refine ⟨update_metric root sampleRate rates, ?_, ?_, ?_⟩
  · rw [update_rates, set_getAll_same]
  · have h := update_metric
      (deletePriority
        (updateSampleRateForPriority (clientTestRoot tID) (2 / 5) NewRateByService).1)
      (1 / 2)
      (updateSampleRateForPriority (clientTestRoot tID) (2 / 5) NewRateByService).2
    rw [get_rate_delete_priority, update_rate, clientTestRoot_rate] at h
    rw [show ("_sample_rate" : String) = SampleRateMetricKey from rfl, h]
    norm_num
  · rw [update_rates, get_rate_delete_priority, update_rate, update_rates,
      clientTestRoot_rate]
    have hs : (deletePriority
        (updateSampleRateForPriority (clientTestRoot tID) (2 / 5) NewRateByService).1).Service
        = "mcnulty" := rfl
    have hm : (deletePriority
        (updateSampleRateForPriority (clientTestRoot tID) (2 / 5) NewRateByService).1).Meta
        = none := rfl
    have hs0 : (clientTestRoot tID).Service = "mcnulty" := rfl
    have hm0 : (clientTestRoot tID).Meta = none := rfl
    rw [hs, hm, hs0, hm0]
    funext k
    simp only [RateByService.GetAll, RateByService.Set, NewRateByService, mcnulty_key,
      default_key]
    by_cases h1 : k = "service:mcnulty,env:"
    · simp only [h1, if_true]
      norm_num
    · simp only [h1, if_false]

/-! ## Empty traces -/

/-- C6: for every core sampler, sampler state, root span and env, `Sample` of
the score policy and of the priority policy on an empty trace returns false and
returns the sampler (backend scores, retained-sample counter, registry) and the
root span exactly as they were passed in. -/
theorem C6_empty_trace_rejected {C : Type} (d : Deps C) (sc : ScoreSampler C)
    (ps : PrioritySampler C) (root : Span) (env : String) :
    ScoreSampler.Sample d sc [] root env = ⟨false, sc, root⟩
    ∧ PrioritySampler.Sample d ps [] root env = ⟨false, ps, root⟩ := by
  constructor
  · simp [ScoreSampler.Sample]
  · simp [PrioritySampler.Sample]

/-- C7: `ServiceSampler.Sample` on an empty trace whose root carries the tag
`_sampling_priority_v1` with value `"1"` returns true, for every core sampler,
sampler state and env; the sampler and the root are returned as they were passed
in. -/
theorem C7_service_sampler_accepts_empty_trace {C : Type} (d : Deps C)
    (ss : ServiceSampler C) (env : String) (tID : Nat) :
    (ServiceSampler.Sample d ss [] (priorityTagRoot tID) env).sampled = true
    ∧ (ServiceSampler.Sample d ss [] (priorityTagRoot tID) env).s = ss
    ∧ (ServiceSampler.Sample d ss [] (priorityTagRoot tID) env).root
      = priorityTagRoot tID := by
  have hin : ScoreSampler.Sample d ss.sampler [] (priorityTagRoot tID) env
      = ⟨false, ss.sampler, priorityTagRoot tID⟩ := by
    simp [ScoreSampler.Sample]
  have htag : GoMap.index "" (priorityTagRoot tID).Meta samplingPriorityKey = "1" := by
    simp [GoMap.index, GoMap.lookup, priorityTagRoot, samplingPriorityKey]
  have hat : Atoi "1" = some 1 := by decide
  simp only [ServiceSampler.Sample, hin, htag, hat]
  exact ⟨by decide, trivial, trivial⟩

/-! ## The service policy -/

theorem plus_not_digit : isDecimalDigit '+' = false := by decide
theorem minus_not_digit : isDecimalDigit '-' = false := by decide

/-- The part of `Atoi` after the sign has been read. -/
theorem Atoi_body_pos (neg : Bool) (ds : List Char) (n : Int) :
    ((if ds.isEmpty then none
      else if !ds.all isDecimalDigit then none
      else
        if !neg && decide (decimalValue ds ≥ 2 ^ (intSize - 1)) then none
        else if neg && decide (decimalValue ds > 2 ^ (intSize - 1)) then none
        else if neg then some (-(decimalValue ds : Int)) else some (decimalValue ds : Int))
      = some n ∧ 0 < n)
    ↔ (neg = false ∧ ds ≠ [] ∧ ds.all isDecimalDigit = true
        ∧ 0 < decimalValue ds ∧ decimalValue ds < 2 ^ 63 ∧ n = decimalValue ds) := by
  have h63 : intSize - 1 = 63 := rfl
  rw [h63]
  cases ds with
  | nil => simp
  | cons a as =>
    cases hd : (a :: as).all isDecimalDigit with
    | false => simp
    | true =>
      cases neg with
      | true =>
        simp only [List.isEmpty_cons, Bool.not_true, Bool.false_and, Bool.true_and,
          if_false, if_true, Bool.false_eq_true]
        constructor
        · rintro ⟨h, hpos⟩
          split_ifs at h
          have := Option.some.inj h
          omega
        · rintro ⟨h, _⟩
          exact absurd h (by decide)
      | false =>
        simp only [List.isEmpty_cons, Bool.not_true, Bool.not_false, Bool.false_and,
          Bool.true_and, if_false, Bool.false_eq_true, decide_eq_true_eq]
        constructor
        · rintro ⟨h, hpos⟩
          split_ifs at h with hr
          have := Option.some.inj h
          refine ⟨trivial, by simp, trivial, by omega, by omega, this.symm⟩
        · rintro ⟨_, _, _, hpos, hlt, hn⟩
          have hr : ¬ decimalValue (a :: as) ≥ 2 ^ 63 := by omega
          rw [if_neg hr, hn]
          exact ⟨rfl, by exact_mod_cast hpos⟩

theorem Atoi_pos_iff (s : String) :
    (∃ n, Atoi s = some n ∧ 0 < n)
      ↔ ∃ ds : List Char, (s.toList = ds ∨ s.toList = '+' :: ds) ∧ ds ≠ []
          ∧ ds.all isDecimalDigit = true
          ∧ 0 < decimalValue ds ∧ decimalValue ds < 2 ^ 63 := by
  unfold Atoi
  cases hs : s.toList with
  | nil =>
    simp
  | cons c cs =>
    simp only [Atoi_body_pos]
    by_cases hplus : c = '+'
    · subst hplus
      have h1 : (('+' : Char) == '-') = false := by decide
      simp only [h1, beq_self_eq_true, Bool.or_false, if_true]
      constructor
      · rintro ⟨n, _, hne, hd, hpos, hlt, _⟩
        exact ⟨cs, Or.inr rfl, hne, hd, hpos, hlt⟩
      · rintro ⟨ds, hor, hne, hd, hpos, hlt⟩
        have hds : ds = cs := by
          rcases hor with h | h
          · subst h
            simp [plus_not_digit] at hd
          · simpa using h.symm
        subst hds
        exact ⟨_, trivial, hne, hd, hpos, hlt, rfl⟩
    · by_cases hminus : c = '-'
      · subst hminus
        simp only [beq_self_eq_true]
        constructor
        · rintro ⟨n, h, _⟩
          exact absurd h (by decide)
        · rintro ⟨ds, hor, hne, hd, hpos, hlt⟩
          rcases hor with h | h
          · subst h
            simp [minus_not_digit] at hd
          · simp at h
      · have h1 : (c == '+') = false := by simpa using hplus
        have h2 : (c == '-') = false := by simpa using hminus
        simp only [h1, h2, Bool.or_false, if_false, Bool.false_eq_true]
        constructor
        · rintro ⟨n, _, hne, hd, hpos, hlt, _⟩
          exact ⟨c :: cs, Or.inl rfl, hne, hd, hpos, hlt⟩
        · rintro ⟨ds, hor, hne, hd, hpos, hlt⟩
          rcases hor with h | h
          · subst h
            exact ⟨_, trivial, hne, hd, hpos, hlt, rfl⟩
          · simp at h
            exact absurd h.1 hplus

theorem applySampleRate_meta (sbr : Nat → ℚ → Bool) (root : Span) (r : ℚ) :
    (applySampleRate sbr root r).2.Meta = root.Meta := rfl

theorem score_sample_meta {C : Type} (d : Deps C) (s : ScoreSampler C) (trace : Trace)
    (root : Span) (env : String) :
    (ScoreSampler.Sample d s trace root env).root.Meta = root.Meta := by
  unfold ScoreSampler.Sample
  dsimp only
  split_ifs <;> rfl

theorem service_sample_sampled {C : Type} (d : Deps C) (ss : ServiceSampler C)
    (trace : Trace) (root : Span) (env : String) :
    (ServiceSampler.Sample d ss trace root env).sampled = true
      ↔ ∃ n, Atoi (GoMap.index "" root.Meta samplingPriorityKey) = some n ∧ 0 < n := by
  unfold ServiceSampler.Sample
  simp only [score_sample_meta]
  cases h : Atoi (GoMap.index "" root.Meta samplingPriorityKey) with
  | none => simp
  | some n => simp

/-- C8: for every trace (non-empty or not), core sampler and sampler state,
`ServiceSampler.Sample` returns true exactly when `strconv.Atoi` succeeds on the
string tag `root.Meta["_sampling_priority_v1"]` with a strictly positive value,
that is, when the tag is a non-empty string of decimal digits, with an optional
leading `+`, whose value is positive and below `2^63`.  An absent tag, or a nil
`Meta` map, reads as the empty string, on which `Atoi` fails, so the answer is
false; the function is total; and the answer is a function of the tag alone, not
of the wrapped sampler. -/
theorem C8_service_sampler_decision {C : Type} (d : Deps C) (ss : ServiceSampler C)
    (trace : Trace) (root : Span) (env : String) :
    ((ServiceSampler.Sample d ss trace root env).sampled = true
      ↔ ∃ n, Atoi (GoMap.index "" root.Meta "_sampling_priority_v1") = some n ∧ 0 < n)
    ∧ ((ServiceSampler.Sample d ss trace root env).sampled = true
      ↔ ∃ ds : List Char,
          ((GoMap.index "" root.Meta "_sampling_priority_v1").toList = ds
            ∨ (GoMap.index "" root.Meta "_sampling_priority_v1").toList = '+' :: ds)
          ∧ ds ≠ [] ∧ ds.all isDecimalDigit = true
          ∧ 0 < decimalValue ds ∧ decimalValue ds < 2 ^ 63)
    ∧ GoMap.index "" (none : GoMap String) "_sampling_priority_v1" = ""
    ∧ Atoi "" = none
    ∧ Atoi "yes" = none := by
  refine ⟨service_sample_sampled d ss trace root env, ?_, rfl, by decide, by decide⟩
  rw [service_sample_sampled, Atoi_pos_iff]
  rfl

/-! ## The priority policy on a non-empty trace -/

theorem priority_sample_sampled {C : Type} (d : Deps C) (s : PrioritySampler C)
    (trace : Trace) (root : Span) (env : String) (h : trace ≠ []) :
    (PrioritySampler.Sample d s trace root env).sampled
      = decide (GoMap.index (0 : ℚ) root.Metrics samplingPriorityKey > 0) := by
  have hl : ¬ trace.length = 0 := by simpa using h
  unfold PrioritySampler.Sample
  rw [if_neg hl]
  dsimp only
  split_ifs <;> rfl

theorem priority_sample_root {C : Type} (d : Deps C) (s : PrioritySampler C)
    (trace : Trace) (root : Span) (env : String) (h : trace ≠ []) :
    ((PrioritySampler.Sample d s trace root env).root,
      (PrioritySampler.Sample d s trace root env).s.rates)
      = if GoMap.index (0 : ℚ) root.Metrics samplingPriorityKey > 0
            ∧ PrioritySampler.maxTPSrate d s root env < 1 then
          updateSampleRateForPriority
            (updateSampleRateForPriority root
              (PrioritySampler.sampleRate d s trace root env) s.rates).1
            (PrioritySampler.sampleRate d s trace root env)
            (updateSampleRateForPriority root
              (PrioritySampler.sampleRate d s trace root env) s.rates).2
        else
          updateSampleRateForPriority root
            (PrioritySampler.sampleRate d s trace root env) s.rates := by
  have hl : ¬ trace.length = 0 := by simpa using h
  unfold PrioritySampler.Sample PrioritySampler.maxTPSrate PrioritySampler.sampleRate
  rw [if_neg hl]
  dsimp only
  by_cases hf : GoMap.index (0 : ℚ) root.Metrics samplingPriorityKey > 0
  · by_cases hm : d.GetMaxTPSSampleRate
        (d.CountSample (d.CountSignature s.sampler (d.computeServiceSignature root env))) < 1
    · simp only [hf, hm, decide_True, if_true, and_self]
    · simp only [hf, hm, decide_True, if_true, if_false, and_false]
  · simp only [hf, decide_False, if_false, false_and, Bool.false_eq_true]

theorem rootEnv_update (root : Span) (r : ℚ) (rates : RateByService) :
    rootEnv (updateSampleRateForPriority root r rates).1 = rootEnv root := rfl

theorem update_rates_rootEnv (root : Span) (r : ℚ) (rates : RateByService) :
    (updateSampleRateForPriority root r rates).2
      = rates.Set root.Service (rootEnv root) (GetTraceAppliedSampleRate root * r) :=
  update_rates root r rates

theorem priority_sample_metric {C : Type} (d : Deps C) (s : PrioritySampler C)
    (trace : Trace) (root : Span) (env : String) (h : trace ≠ []) :
    (PrioritySampler.Sample d s trace root env).root.Metrics.lookup SampleRateMetricKey
      = some (GetTraceAppliedSampleRate root * PrioritySampler.sampleRate d s trace root env
          * (if GoMap.index (0 : ℚ) root.Metrics samplingPriorityKey > 0
                ∧ PrioritySampler.maxTPSrate d s root env < 1
              then PrioritySampler.sampleRate d s trace root env else 1)) := by
  have hr := congrArg Prod.fst (priority_sample_root d s trace root env h)
  simp only at hr
  rw [hr]
  split_ifs
  · rw [update_metric, update_rate]
  · rw [update_metric, mul_one]

theorem priority_sample_entry {C : Type} (d : Deps C) (s : PrioritySampler C)
    (trace : Trace) (root : Span) (env : String) (h : trace ≠ []) :
    (PrioritySampler.Sample d s trace root env).s.rates.GetAll
        (byServiceKey root.Service (rootEnv root))
      = some (GetTraceAppliedSampleRate root * PrioritySampler.sampleRate d s trace root env
          * (if GoMap.index (0 : ℚ) root.Metrics samplingPriorityKey > 0
                ∧ PrioritySampler.maxTPSrate d s root env < 1
              then PrioritySampler.sampleRate d s trace root env else 1)) := by
  have hr := congrArg Prod.snd (priority_sample_root d s trace root env h)
  simp only at hr
  rw [hr]
  split_ifs
  · rw [update_rates_rootEnv, update_rate, rootEnv_update, update_service, set_getAll_same]
  · rw [update_rates_rootEnv, set_getAll_same, mul_one]

/-- C9, amended: for every non-empty trace, core sampler and sampler state,
`PrioritySampler.Sample` returns exactly `root.Metrics["_sampling_priority_v1"] > 0`
(false when the flag is absent), whatever the sample rate, the max-TPS rate, the
backend or the registry are; and in both outcomes the bookkeeping is done: the
registry entry of the root's `(Service, env tag)` is written and holds the
cumulative rate of the root, and, unless the trace is kept with a max-TPS rate
below 1, that cumulative rate is the prior rate times the computed sample
rate. -/
theorem C9_priority_decision_and_bookkeeping {C : Type} (d : Deps C)
    (s : PrioritySampler C) (trace : Trace) (root : Span) (env : String)
    (h : trace ≠ []) :
    (PrioritySampler.Sample d s trace root env).sampled
      = decide (GoMap.index (0 : ℚ) root.Metrics "_sampling_priority_v1" > 0)
    ∧ (¬ (GoMap.index (0 : ℚ) root.Metrics "_sampling_priority_v1" > 0
          ∧ PrioritySampler.maxTPSrate d s root env < 1) →
        (PrioritySampler.Sample d s trace root env).root.Metrics.lookup "_sample_rate"
          = some (GetTraceAppliedSampleRate root
              * PrioritySampler.sampleRate d s trace root env)
        ∧ (PrioritySampler.Sample d s trace root env).s.rates.GetAll
            (byServiceKey root.Service (rootEnv root))
          = some (GetTraceAppliedSampleRate root
              * PrioritySampler.sampleRate d s trace root env))
    ∧ (PrioritySampler.Sample d s trace root env).s.rates.GetAll
        (byServiceKey root.Service (rootEnv root))
      = (PrioritySampler.Sample d s trace root env).root.Metrics.lookup "_sample_rate" := by
  have hmet := priority_sample_metric d s trace root env h
  have hent := priority_sample_entry d s trace root env h
  refine ⟨priority_sample_sampled d s trace root env h, ?_, ?_⟩
  · intro hno
    have hno2 : ¬ (GoMap.index (0 : ℚ) root.Metrics samplingPriorityKey > 0
        ∧ PrioritySampler.maxTPSrate d s root env < 1) := hno
    rw [if_neg hno2, mul_one] at hmet hent
    exact ⟨hmet, hent⟩
  · rw [hent]
    exact hmet.symm

/-- The statement of amended C9 on the one-span trace of the test root, with a
sample rate of 0.5 and no max-TPS throttling. -/
theorem C9_priority_decision_and_bookkeeping_witness :
    [clientTestRoot 1] ≠ []
    ∧ (PrioritySampler.Sample (fixedRateDeps (1 / 2) 1) ⟨Backend.empty, NewRateByService⟩ [clientTestRoot 1] (clientTestRoot 1) "").sampled
      = decide (GoMap.index (0 : ℚ) (clientTestRoot 1).Metrics "_sampling_priority_v1" > 0)
    ∧ (¬ (GoMap.index (0 : ℚ) (clientTestRoot 1).Metrics "_sampling_priority_v1" > 0
          ∧ PrioritySampler.maxTPSrate (fixedRateDeps (1 / 2) 1) ⟨Backend.empty, NewRateByService⟩ (clientTestRoot 1) "" < 1) →
        (PrioritySampler.Sample (fixedRateDeps (1 / 2) 1) ⟨Backend.empty, NewRateByService⟩ [clientTestRoot 1] (clientTestRoot 1) "").root.Metrics.lookup "_sample_rate"
          = some (GetTraceAppliedSampleRate (clientTestRoot 1)
              * PrioritySampler.sampleRate (fixedRateDeps (1 / 2) 1) ⟨Backend.empty, NewRateByService⟩ [clientTestRoot 1] (clientTestRoot 1) "")
        ∧ (PrioritySampler.Sample (fixedRateDeps (1 / 2) 1) ⟨Backend.empty, NewRateByService⟩ [clientTestRoot 1] (clientTestRoot 1) "").s.rates.GetAll
            (byServiceKey (clientTestRoot 1).Service (rootEnv (clientTestRoot 1)))
          = some (GetTraceAppliedSampleRate (clientTestRoot 1)
              * PrioritySampler.sampleRate (fixedRateDeps (1 / 2) 1) ⟨Backend.empty, NewRateByService⟩ [clientTestRoot 1] (clientTestRoot 1) ""))
    ∧ (PrioritySampler.Sample (fixedRateDeps (1 / 2) 1) ⟨Backend.empty, NewRateByService⟩ [clientTestRoot 1] (clientTestRoot 1) "").s.rates.GetAll
        (byServiceKey (clientTestRoot 1).Service (rootEnv (clientTestRoot 1)))
      = (PrioritySampler.Sample (fixedRateDeps (1 / 2) 1) ⟨Backend.empty, NewRateByService⟩ [clientTestRoot 1] (clientTestRoot 1) "").root.Metrics.lookup "_sample_rate" :=
  ⟨by simp, C9_priority_decision_and_bookkeeping (fixedRateDeps (1 / 2) 1)
    ⟨Backend.empty, NewRateByService⟩ [clientTestRoot 1] (clientTestRoot 1) "" (by simp)⟩

theorem clientTestRoot_priority (tID : Nat) :
    GoMap.index (0 : ℚ) (clientTestRoot tID).Metrics samplingPriorityKey = 1 := by
  simp [GoMap.index, GoMap.lookup, clientTestRoot, samplingPriorityKey]

/-- C9, as stated, fails: on the one-span trace of the test root (priority flag
1, no prior rate), with a sample rate of 0.5 and a max-TPS rate of 0.5, the trace
is kept and the throttling branch updates the root a second time; the cumulative
rate ends at 0.25, not at the prior rate times the sample rate, 0.5. -/
theorem C9_kept_and_throttled_rate_is_not_p_times_s :
    (PrioritySampler.Sample (fixedRateDeps (1 / 2) (1 / 2)) ⟨Backend.empty, NewRateByService⟩
        [clientTestRoot 1] (clientTestRoot 1) "").sampled = true
    ∧ (PrioritySampler.Sample (fixedRateDeps (1 / 2) (1 / 2)) ⟨Backend.empty, NewRateByService⟩
        [clientTestRoot 1] (clientTestRoot 1) "").root.Metrics.lookup "_sample_rate"
      = some (1 / 4)
    ∧ (PrioritySampler.Sample (fixedRateDeps (1 / 2) (1 / 2)) ⟨Backend.empty, NewRateByService⟩
        [clientTestRoot 1] (clientTestRoot 1) "").root.Metrics.lookup "_sample_rate"
      ≠ some (GetTraceAppliedSampleRate (clientTestRoot 1)
          * PrioritySampler.sampleRate (fixedRateDeps (1 / 2) (1 / 2))
              ⟨Backend.empty, NewRateByService⟩ [clientTestRoot 1] (clientTestRoot 1) "") := by
  have hne : [clientTestRoot 1] ≠ [] := by simp
  have hs : PrioritySampler.sampleRate (fixedRateDeps (1 / 2) (1 / 2))
      ⟨Backend.empty, NewRateByService⟩ [clientTestRoot 1] (clientTestRoot 1) "" = 1 / 2 := rfl
  have hm : PrioritySampler.maxTPSrate (fixedRateDeps (1 / 2) (1 / 2))
      ⟨Backend.empty, NewRateByService⟩ (clientTestRoot 1) "" = 1 / 2 := rfl
  have hmet := priority_sample_metric (fixedRateDeps (1 / 2) (1 / 2))
    ⟨Backend.empty, NewRateByService⟩ [clientTestRoot 1] (clientTestRoot 1) "" hne
  rw [hs, hm, clientTestRoot_priority, clientTestRoot_rate] at hmet
  have hv : (1 : ℚ) * (1 / 2) * (if (1 : ℚ) > 0 ∧ (1 / 2 : ℚ) < 1 then 1 / 2 else 1)
      = 1 / 4 := by norm_num
  rw [hv] at hmet
  refine ⟨?_, hmet, ?_⟩
  · rw [priority_sample_sampled _ _ _ _ _ hne, clientTestRoot_priority]
    simp
  · rw [show ("_sample_rate" : String) = SampleRateMetricKey from rfl, hmet, hs,
      clientTestRoot_rate]
    norm_num

/-- C10: the priority policy on the one-span trace of the test root (priority
flag 1, no prior rate), with a sample rate of 0.5 and a max-TPS rate of 0.8.  The
trace is kept, and the cumulative rate of the root and the registry entry
`"service:mcnulty,env:"` end at 0.25, the sample rate applied twice, not at 0.4,
the sample rate times the max-TPS rate. -/
theorem C10_throttle_applies_sample_rate_again :
    (PrioritySampler.Sample (fixedRateDeps (1 / 2) (4 / 5)) ⟨Backend.empty, NewRateByService⟩
        [clientTestRoot 1] (clientTestRoot 1) "").sampled = true
    ∧ (PrioritySampler.Sample (fixedRateDeps (1 / 2) (4 / 5)) ⟨Backend.empty, NewRateByService⟩
        [clientTestRoot 1] (clientTestRoot 1) "").root.Metrics.lookup "_sample_rate"
      = some (1 / 4)
    ∧ (PrioritySampler.Sample (fixedRateDeps (1 / 2) (4 / 5)) ⟨Backend.empty, NewRateByService⟩
        [clientTestRoot 1] (clientTestRoot 1) "").root.Metrics.lookup "_sample_rate"
      ≠ some (1 * (1 / 2) * (4 / 5))
    ∧ (PrioritySampler.Sample (fixedRateDeps (1 / 2) (4 / 5)) ⟨Backend.empty, NewRateByService⟩
        [clientTestRoot 1] (clientTestRoot 1) "").s.rates.GetAll "service:mcnulty,env:"
      = some (1 / 4) := by
  have hne : [clientTestRoot 1] ≠ [] := by simp
  have hs : PrioritySampler.sampleRate (fixedRateDeps (1 / 2) (4 / 5))
      ⟨Backend.empty, NewRateByService⟩ [clientTestRoot 1] (clientTestRoot 1) "" = 1 / 2 := rfl
  have hm : PrioritySampler.maxTPSrate (fixedRateDeps (1 / 2) (4 / 5))
      ⟨Backend.empty, NewRateByService⟩ (clientTestRoot 1) "" = 4 / 5 := rfl
  have hmet := priority_sample_metric (fixedRateDeps (1 / 2) (4 / 5))
    ⟨Backend.empty, NewRateByService⟩ [clientTestRoot 1] (clientTestRoot 1) "" hne
  have hent := priority_sample_entry (fixedRateDeps (1 / 2) (4 / 5))
    ⟨Backend.empty, NewRateByService⟩ [clientTestRoot 1] (clientTestRoot 1) "" hne
  rw [hs, hm, clientTestRoot_priority, clientTestRoot_rate] at hmet hent
  have hk : byServiceKey (clientTestRoot 1).Service (rootEnv (clientTestRoot 1))
      = "service:mcnulty,env:" := by decide
  rw [hk] at hent
  have hv : (1 : ℚ) * (1 / 2) * (if (1 : ℚ) > 0 ∧ (4 / 5 : ℚ) < 1 then 1 / 2 else 1)
      = 1 / 4 := by norm_num
  rw [hv] at hmet hent
  refine ⟨?_, hmet, ?_, hent⟩
  · rw [priority_sample_sampled _ _ _ _ _ hne, clientTestRoot_priority]
    simp
  · rw [show ("_sample_rate" : String) = SampleRateMetricKey from rfl, hmet]
    norm_num

/-! ## The score policy on a non-empty trace -/

theorem applySampleRate_eq (sbr : Nat → ℚ → Bool) (root : Span) (r : ℚ) :
    applySampleRate sbr root r
      = (sbr root.TraceID (GetTraceAppliedSampleRate root * r),
          SetTraceAppliedSampleRate root (GetTraceAppliedSampleRate root * r)) := rfl

theorem set_rate_traceID (root : Span) (r : ℚ) :
    (SetTraceAppliedSampleRate root r).TraceID = root.TraceID := rfl

/-- The three paths of `ScoreSampler.Sample` on a non-empty trace. -/
theorem score_sample_nonempty {C : Type} (d : Deps C) (s : ScoreSampler C)
    (trace : Trace) (root : Span) (env : String) (h : trace ≠ []) :
    ScoreSampler.Sample d s trace root env
      = if d.SampleByRate root.TraceID
            (GetTraceAppliedSampleRate root * ScoreSampler.sampleRate d s trace root env)
            = true then
          if ScoreSampler.maxTPSrate d s trace root env < 1 then
            ⟨d.SampleByRate root.TraceID
                (GetTraceAppliedSampleRate root * ScoreSampler.sampleRate d s trace root env
                  * ScoreSampler.maxTPSrate d s trace root env),
              ⟨d.CountSample (d.CountSignature s.sampler
                (d.computeSignatureWithRootAndEnv trace root env))⟩,
              SetTraceAppliedSampleRate
                (SetTraceAppliedSampleRate root
                  (GetTraceAppliedSampleRate root
                    * ScoreSampler.sampleRate d s trace root env))
                (GetTraceAppliedSampleRate root * ScoreSampler.sampleRate d s trace root env
                  * ScoreSampler.maxTPSrate d s trace root env)⟩
          else
            ⟨true,
              ⟨d.CountSample (d.CountSignature s.sampler
                (d.computeSignatureWithRootAndEnv trace root env))⟩,
              SetTraceAppliedSampleRate root
                (GetTraceAppliedSampleRate root
                  * ScoreSampler.sampleRate d s trace root env)⟩
        else
          ⟨false,
            ⟨d.CountSignature s.sampler (d.computeSignatureWithRootAndEnv trace root env)⟩,
            SetTraceAppliedSampleRate root
              (GetTraceAppliedSampleRate root
                * ScoreSampler.sampleRate d s trace root env)⟩ := by
  have hl : ¬ trace.length = 0 := by simpa using h
  unfold ScoreSampler.Sample ScoreSampler.maxTPSrate ScoreSampler.sampleRate
  rw [if_neg hl]
  simp only [applySampleRate_eq, get_set_rate, set_rate_traceID]
  by_cases ha : d.SampleByRate root.TraceID
      (GetTraceAppliedSampleRate root
        * d.GetSampleRate
            (d.CountSignature s.sampler (d.computeSignatureWithRootAndEnv trace root env))
            trace root (d.computeSignatureWithRootAndEnv trace root env)) = true
  · simp only [ha, if_true]
  · have hf : d.SampleByRate root.TraceID
        (GetTraceAppliedSampleRate root
          * d.GetSampleRate
              (d.CountSignature s.sampler (d.computeSignatureWithRootAndEnv trace root env))
              trace root (d.computeSignatureWithRootAndEnv trace root env)) = false := by
      simpa using ha
    simp only [hf, if_false, Bool.false_eq_true]

theorem score_sample_sampled {C : Type} (d : Deps C) (s : ScoreSampler C)
    (trace : Trace) (root : Span) (env : String) (h : trace ≠ []) :
    (ScoreSampler.Sample d s trace root env).sampled
      = if d.SampleByRate root.TraceID
            (GetTraceAppliedSampleRate root * ScoreSampler.sampleRate d s trace root env)
            = true then
          if ScoreSampler.maxTPSrate d s trace root env < 1 then
            d.SampleByRate root.TraceID
              (GetTraceAppliedSampleRate root * ScoreSampler.sampleRate d s trace root env
                * ScoreSampler.maxTPSrate d s trace root env)
          else true
        else false := by
  rw [score_sample_nonempty d s trace root env h]
  split_ifs <;> rfl

theorem score_sample_rate {C : Type} (d : Deps C) (s : ScoreSampler C)
    (trace : Trace) (root : Span) (env : String) (h : trace ≠ []) :
    GetTraceAppliedSampleRate (ScoreSampler.Sample d s trace root env).root
      = if d.SampleByRate root.TraceID
            (GetTraceAppliedSampleRate root * ScoreSampler.sampleRate d s trace root env)
            = true
            ∧ ScoreSampler.maxTPSrate d s trace root env < 1 then
          GetTraceAppliedSampleRate root * ScoreSampler.sampleRate d s trace root env
            * ScoreSampler.maxTPSrate d s trace root env
        else
          GetTraceAppliedSampleRate root * ScoreSampler.sampleRate d s trace root env := by
  rw [score_sample_nonempty d s trace root env h]
  by_cases ha : d.SampleByRate root.TraceID
      (GetTraceAppliedSampleRate root * ScoreSampler.sampleRate d s trace root env) = true
  · by_cases hm : ScoreSampler.maxTPSrate d s trace root env < 1
    · simp only [ha, hm, if_true, and_self, get_set_rate]
    · simp only [ha, hm, if_true, if_false, and_false, get_set_rate]
  · simp only [ha, if_false, false_and, get_set_rate, Bool.false_eq_true]

theorem score_sample_metric {C : Type} (d : Deps C) (s : ScoreSampler C)
    (trace : Trace) (root : Span) (env : String) (h : trace ≠ []) :
    (ScoreSampler.Sample d s trace root env).root.Metrics.lookup SampleRateMetricKey
      = some (GetTraceAppliedSampleRate (ScoreSampler.Sample d s trace root env).root) := by
  rw [score_sample_nonempty d s trace root env h]
  split_ifs <;> simp only [metric_set_rate, get_set_rate]

theorem score_sample_traceID {C : Type} (d : Deps C) (s : ScoreSampler C)
    (trace : Trace) (root : Span) (env : String) :
    (ScoreSampler.Sample d s trace root env).root.TraceID = root.TraceID := by
  unfold ScoreSampler.Sample
  dsimp only
  split_ifs <;> rfl

/-- C11: the two-stage decision of the score policy.  For every non-empty trace,
with `t` the trace identifier of the root, `p` its prior cumulative rate, `s`
the rate of `GetSampleRate` and `m` the rate of `GetMaxTPSSampleRate`: when
`SampleByRate(t, p*s)` is false the call returns false and the cumulative rate is
`p*s`; when it is true and `m >= 1` the call returns true and the cumulative rate
is `p*s`; when it is true and `m < 1` the cumulative rate is `p*s*m` and the
call returns `SampleByRate(t, p*s*m)`.  The call never returns true after an
initial reject. -/
theorem C11_score_two_stage_decision {C : Type} (d : Deps C) (s : ScoreSampler C)
    (trace : Trace) (root : Span) (env : String) (h : trace ≠ []) :
    (ScoreSampler.Sample d s trace root env).sampled
      = (if d.SampleByRate root.TraceID
            (GetTraceAppliedSampleRate root * ScoreSampler.sampleRate d s trace root env)
            = true then
          if ScoreSampler.maxTPSrate d s trace root env < 1 then
            d.SampleByRate root.TraceID
              (GetTraceAppliedSampleRate root * ScoreSampler.sampleRate d s trace root env
                * ScoreSampler.maxTPSrate d s trace root env)
          else true
        else false)
    ∧ (ScoreSampler.Sample d s trace root env).root.Metrics.lookup "_sample_rate"
      = some (if d.SampleByRate root.TraceID
            (GetTraceAppliedSampleRate root * ScoreSampler.sampleRate d s trace root env)
            = true
            ∧ ScoreSampler.maxTPSrate d s trace root env < 1 then
          GetTraceAppliedSampleRate root * ScoreSampler.sampleRate d s trace root env
            * ScoreSampler.maxTPSrate d s trace root env
        else
          GetTraceAppliedSampleRate root * ScoreSampler.sampleRate d s trace root env)
    ∧ ((ScoreSampler.Sample d s trace root env).sampled
        && !d.SampleByRate root.TraceID
            (GetTraceAppliedSampleRate root * ScoreSampler.sampleRate d s trace root env))
      = false := by
  refine ⟨score_sample_sampled d s trace root env h, ?_, ?_⟩
  · rw [show ("_sample_rate" : String) = SampleRateMetricKey from rfl,
      score_sample_metric d s trace root env h, score_sample_rate d s trace root env h]
  · rw [score_sample_sampled d s trace root env h]
    by_cases ha : d.SampleByRate root.TraceID
        (GetTraceAppliedSampleRate root * ScoreSampler.sampleRate d s trace root env) = true
    · simp [ha]
    · simp [ha]

/-- The statement of C11 on the one-span trace of the agent test root, with a
sample rate and a max-TPS rate of 0.5. -/
theorem C11_score_two_stage_decision_witness :
    [agentTestRoot 1] ≠ []
    ∧ (ScoreSampler.Sample (fixedRateDeps (1 / 2) (1 / 2)) ⟨Backend.empty⟩ [agentTestRoot 1] (agentTestRoot 1) "").sampled
      = (if (fixedRateDeps (1 / 2) (1 / 2)).SampleByRate (agentTestRoot 1).TraceID
            (GetTraceAppliedSampleRate (agentTestRoot 1) * ScoreSampler.sampleRate (fixedRateDeps (1 / 2) (1 / 2)) ⟨Backend.empty⟩ [agentTestRoot 1] (agentTestRoot 1) "")
            = true then
          if ScoreSampler.maxTPSrate (fixedRateDeps (1 / 2) (1 / 2)) ⟨Backend.empty⟩ [agentTestRoot 1] (agentTestRoot 1) "" < 1 then
            (fixedRateDeps (1 / 2) (1 / 2)).SampleByRate (agentTestRoot 1).TraceID
              (GetTraceAppliedSampleRate (agentTestRoot 1) * ScoreSampler.sampleRate (fixedRateDeps (1 / 2) (1 / 2)) ⟨Backend.empty⟩ [agentTestRoot 1] (agentTestRoot 1) ""
                * ScoreSampler.maxTPSrate (fixedRateDeps (1 / 2) (1 / 2)) ⟨Backend.empty⟩ [agentTestRoot 1] (agentTestRoot 1) "")
          else true
        else false)
    ∧ (ScoreSampler.Sample (fixedRateDeps (1 / 2) (1 / 2)) ⟨Backend.empty⟩ [agentTestRoot 1] (agentTestRoot 1) "").root.Metrics.lookup "_sample_rate"
      = some (if (fixedRateDeps (1 / 2) (1 / 2)).SampleByRate (agentTestRoot 1).TraceID
            (GetTraceAppliedSampleRate (agentTestRoot 1) * ScoreSampler.sampleRate (fixedRateDeps (1 / 2) (1 / 2)) ⟨Backend.empty⟩ [agentTestRoot 1] (agentTestRoot 1) "")
            = true
            ∧ ScoreSampler.maxTPSrate (fixedRateDeps (1 / 2) (1 / 2)) ⟨Backend.empty⟩ [agentTestRoot 1] (agentTestRoot 1) "" < 1 then
          GetTraceAppliedSampleRate (agentTestRoot 1) * ScoreSampler.sampleRate (fixedRateDeps (1 / 2) (1 / 2)) ⟨Backend.empty⟩ [agentTestRoot 1] (agentTestRoot 1) ""
            * ScoreSampler.maxTPSrate (fixedRateDeps (1 / 2) (1 / 2)) ⟨Backend.empty⟩ [agentTestRoot 1] (agentTestRoot 1) ""
        else
          GetTraceAppliedSampleRate (agentTestRoot 1) * ScoreSampler.sampleRate (fixedRateDeps (1 / 2) (1 / 2)) ⟨Backend.empty⟩ [agentTestRoot 1] (agentTestRoot 1) "")
    ∧ ((ScoreSampler.Sample (fixedRateDeps (1 / 2) (1 / 2)) ⟨Backend.empty⟩ [agentTestRoot 1] (agentTestRoot 1) "").sampled
        && !(fixedRateDeps (1 / 2) (1 / 2)).SampleByRate (agentTestRoot 1).TraceID
            (GetTraceAppliedSampleRate (agentTestRoot 1) * ScoreSampler.sampleRate (fixedRateDeps (1 / 2) (1 / 2)) ⟨Backend.empty⟩ [agentTestRoot 1] (agentTestRoot 1) ""))
      = false :=
  ⟨by simp, C11_score_two_stage_decision (fixedRateDeps (1 / 2) (1 / 2)) ⟨Backend.empty⟩
    [agentTestRoot 1] (agentTestRoot 1) "" (by simp)⟩

/-- C20: for every non-empty trace, core sampler and sampler state, the boolean
returned by `ScoreSampler.Sample` is `SampleByRate(root.TraceID, c)` with `c` the
cumulative rate stored on the root when the call returns, whichever of the three
paths is taken; `c` is the value of `root.Metrics["_sample_rate"]`. -/
theorem C20_score_answer_agrees_with_recorded_rate {C : Type} (d : Deps C)
    (s : ScoreSampler C) (trace : Trace) (root : Span) (env : String) (h : trace ≠ []) :
    (ScoreSampler.Sample d s trace root env).sampled
      = d.SampleByRate (ScoreSampler.Sample d s trace root env).root.TraceID
          (GetTraceAppliedSampleRate (ScoreSampler.Sample d s trace root env).root)
    ∧ (ScoreSampler.Sample d s trace root env).root.Metrics.lookup "_sample_rate"
      = some (GetTraceAppliedSampleRate (ScoreSampler.Sample d s trace root env).root) := by
  refine ⟨?_, score_sample_metric d s trace root env h⟩
  rw [score_sample_traceID, score_sample_rate d s trace root env h,
    score_sample_sampled d s trace root env h]
  by_cases ha : d.SampleByRate root.TraceID
      (GetTraceAppliedSampleRate root * ScoreSampler.sampleRate d s trace root env) = true
  · by_cases hm : ScoreSampler.maxTPSrate d s trace root env < 1
    · simp only [ha, hm, if_true, and_self]
    · simp only [ha, hm, if_true, if_false, and_false]
  · have hf : d.SampleByRate root.TraceID
        (GetTraceAppliedSampleRate root * ScoreSampler.sampleRate d s trace root env)
        = false := by simpa using ha
    simp only [hf, if_false, false_and, Bool.false_eq_true]

/-- The statement of C20 on a one-span trace that is accepted at first, with a
sample rate of 1, and then rejected by the throttle, with a max-TPS rate of
0.5. -/
theorem C20_score_answer_agrees_with_recorded_rate_witness :
    [agentTestRoot 9] ≠ []
    ∧ (ScoreSampler.Sample (fixedRateDeps 1 (1 / 2)) ⟨Backend.empty⟩ [agentTestRoot 9] (agentTestRoot 9) "").sampled
      = (fixedRateDeps 1 (1 / 2)).SampleByRate (ScoreSampler.Sample (fixedRateDeps 1 (1 / 2)) ⟨Backend.empty⟩ [agentTestRoot 9] (agentTestRoot 9) "").root.TraceID
          (GetTraceAppliedSampleRate (ScoreSampler.Sample (fixedRateDeps 1 (1 / 2)) ⟨Backend.empty⟩ [agentTestRoot 9] (agentTestRoot 9) "").root)
    ∧ (ScoreSampler.Sample (fixedRateDeps 1 (1 / 2)) ⟨Backend.empty⟩ [agentTestRoot 9] (agentTestRoot 9) "").root.Metrics.lookup "_sample_rate"
      = some (GetTraceAppliedSampleRate (ScoreSampler.Sample (fixedRateDeps 1 (1 / 2)) ⟨Backend.empty⟩ [agentTestRoot 9] (agentTestRoot 9) "").root) :=
  ⟨by simp, C20_score_answer_agrees_with_recorded_rate (fixedRateDeps 1 (1 / 2))
    ⟨Backend.empty⟩ [agentTestRoot 9] (agentTestRoot 9) "" (by simp)⟩

/-! ## Calls made on the backend -/

theorem countedSignatures_append (l₁ l₂ : List BackendCall) :
    countedSignatures (l₁ ++ l₂) = countedSignatures l₁ ++ countedSignatures l₂ := by
  simp [countedSignatures, List.filterMap_append]

theorem countedSamples_append (l₁ l₂ : List BackendCall) :
    countedSamples (l₁ ++ l₂) = countedSamples l₁ + countedSamples l₂ := by
  simp [countedSamples, List.filter_append]

/-- The log of the score policy on a non-empty trace: the signature call, then
the sample call when the first rate decision accepts. -/
theorem score_recording_log {C : Type} (d : Deps C) (c : C) (log : List BackendCall)
    (trace : Trace) (root : Span) (env : String) (h : trace ≠ []) :
    (ScoreSampler.Sample (recordingDeps d) ⟨(c, log)⟩ trace root env).s.sampler.2
      = log ++ BackendCall.countSignature (d.computeSignatureWithRootAndEnv trace root env)
          :: (if d.SampleByRate root.TraceID
                (GetTraceAppliedSampleRate root
                  * ScoreSampler.sampleRate d ⟨c⟩ trace root env) = true
              then [BackendCall.countSample] else []) := by
  rw [score_sample_nonempty (recordingDeps d) ⟨(c, log)⟩ trace root env h]
  have hs : ScoreSampler.sampleRate (recordingDeps d) ⟨(c, log)⟩ trace root env
      = ScoreSampler.sampleRate d ⟨c⟩ trace root env := rfl
  have hb : (recordingDeps d).SampleByRate = d.SampleByRate := rfl
  rw [hs, hb]
  by_cases ha : d.SampleByRate root.TraceID
      (GetTraceAppliedSampleRate root * ScoreSampler.sampleRate d ⟨c⟩ trace root env) = true
  · simp only [ha, if_true]
    split_ifs <;> simp [recordingDeps]
  · simp only [ha, if_false, Bool.false_eq_true]
    simp [recordingDeps]

/-- The log of the priority policy on a non-empty trace: the signature call,
then the sample call when the priority flag is positive. -/
theorem priority_recording_log {C : Type} (d : Deps C) (c : C) (log : List BackendCall)
    (rates : RateByService) (trace : Trace) (root : Span) (env : String) (h : trace ≠ []) :
    (PrioritySampler.Sample (recordingDeps d) ⟨(c, log), rates⟩ trace root env).s.sampler.2
      = log ++ BackendCall.countSignature (d.computeServiceSignature root env)
          :: (if GoMap.index (0 : ℚ) root.Metrics samplingPriorityKey > 0
              then [BackendCall.countSample] else []) := by
  have hl : ¬ trace.length = 0 := by simpa using h
  unfold PrioritySampler.Sample
  rw [if_neg hl]
  dsimp only
  by_cases hf : GoMap.index (0 : ℚ) root.Metrics samplingPriorityKey > 0
  · simp only [hf, decide_True, if_true]
    split_ifs <;> simp [recordingDeps]
  · simp only [hf, decide_False, if_false, Bool.false_eq_true]
    simp [recordingDeps]

theorem priority_recording_sampled {C : Type} (d : Deps C) (c : C)
    (log : List BackendCall) (rates : RateByService) (trace : Trace) (root : Span)
    (env : String) (h : trace ≠ []) :
    (PrioritySampler.Sample (recordingDeps d) ⟨(c, log), rates⟩ trace root env).sampled
      = decide (GoMap.index (0 : ℚ) root.Metrics samplingPriorityKey > 0) :=
  priority_sample_sampled (recordingDeps d) ⟨(c, log), rates⟩ trace root env h

/-- C12: for every non-empty trace, core sampler, sampler state and call log, the
score policy and the priority policy each add exactly one `CountSignature` call
to the log of the backend, with the full signature of the trace for the score
policy and with the service signature for the priority policy, whatever the call
returns. -/
theorem C12_count_signature_once {C : Type} (d : Deps C) (c : C)
    (log : List BackendCall) (rates : RateByService) (trace : Trace) (root : Span)
    (env : String) (h : trace ≠ []) :
    countedSignatures
        (ScoreSampler.Sample (recordingDeps d) ⟨(c, log)⟩ trace root env).s.sampler.2
      = countedSignatures log ++ [d.computeSignatureWithRootAndEnv trace root env]
    ∧ countedSignatures
        (PrioritySampler.Sample (recordingDeps d) ⟨(c, log), rates⟩
          trace root env).s.sampler.2
      = countedSignatures log ++ [d.computeServiceSignature root env] := by
  constructor
  · rw [score_recording_log d c log trace root env h, countedSignatures_append]
    split_ifs <;> rfl
  · rw [priority_recording_log d c log rates trace root env h, countedSignatures_append]
    split_ifs <;> rfl

/-- The statement of C12 on the one-span trace of the client test root. -/
theorem C12_count_signature_once_witness :
    [clientTestRoot 1] ≠ []
    ∧ countedSignatures
        (ScoreSampler.Sample (recordingDeps (fixedRateDeps (1 / 2) 1)) ⟨(Backend.empty, [])⟩ [clientTestRoot 1] (clientTestRoot 1) "").s.sampler.2
      = countedSignatures [] ++ [(fixedRateDeps (1 / 2) 1).computeSignatureWithRootAndEnv [clientTestRoot 1] (clientTestRoot 1) ""]
    ∧ countedSignatures
        (PrioritySampler.Sample (recordingDeps (fixedRateDeps (1 / 2) 1)) ⟨(Backend.empty, []), NewRateByService⟩
          [clientTestRoot 1] (clientTestRoot 1) "").s.sampler.2
      = countedSignatures [] ++ [(fixedRateDeps (1 / 2) 1).computeServiceSignature (clientTestRoot 1) ""] :=
  ⟨by simp, C12_count_signature_once (fixedRateDeps (1 / 2) 1) Backend.empty []
    NewRateByService [clientTestRoot 1] (clientTestRoot 1) "" (by simp)⟩

theorem score_recording_sampled {C : Type} (d : Deps C) (c : C) (log : List BackendCall)
    (trace : Trace) (root : Span) (env : String) (h : trace ≠ []) :
    (ScoreSampler.Sample (recordingDeps d) ⟨(c, log)⟩ trace root env).sampled
      = (ScoreSampler.Sample d ⟨c⟩ trace root env).sampled := by
  rw [score_sample_sampled (recordingDeps d) ⟨(c, log)⟩ trace root env h,
    score_sample_sampled d ⟨c⟩ trace root env h]
  rfl

theorem sampleByRate_nine_one : SampleByRate 9 (1 * 1) = true := by
  simp [SampleByRate]

theorem sampleByRate_nine_half : SampleByRate 9 (1 * 1 * (1 / 2)) = false := by
  simp only [SampleByRate]
  norm_num

/-- C13, as stated, fails: with a sample rate of 1 and a max-TPS rate of 0.5,
the score policy accepts the one-span trace with identifier 9 at first, calls
`CountSample`, and then rejects it under the throttle; the call returns false
and the log holds one `CountSample` call. -/
theorem C13_counted_sample_of_rejected_trace :
    (ScoreSampler.Sample (fixedRateDeps 1 (1 / 2)) ⟨Backend.empty⟩
        [agentTestRoot 9] (agentTestRoot 9) "").sampled = false
    ∧ (ScoreSampler.Sample (recordingDeps (fixedRateDeps 1 (1 / 2))) ⟨(Backend.empty, [])⟩
        [agentTestRoot 9] (agentTestRoot 9) "").s.sampler.2
      = [BackendCall.countSignature 8, BackendCall.countSample]
    ∧ countedSamples
        (ScoreSampler.Sample (recordingDeps (fixedRateDeps 1 (1 / 2))) ⟨(Backend.empty, [])⟩
          [agentTestRoot 9] (agentTestRoot 9) "").s.sampler.2 = 1
    ∧ (ScoreSampler.Sample (fixedRateDeps 1 (1 / 2)) ⟨Backend.empty⟩
        [agentTestRoot 9] (agentTestRoot 9) "").s.sampler.sampledScore = 1 := by
  have hne : [agentTestRoot 9] ≠ [] := by simp
  have hs : ScoreSampler.sampleRate (fixedRateDeps 1 (1 / 2)) ⟨Backend.empty⟩
      [agentTestRoot 9] (agentTestRoot 9) "" = 1 := rfl
  have hm : ScoreSampler.maxTPSrate (fixedRateDeps 1 (1 / 2)) ⟨Backend.empty⟩
      [agentTestRoot 9] (agentTestRoot 9) "" = 1 / 2 := rfl
  have hb : (fixedRateDeps 1 (1 / 2)).SampleByRate = SampleByRate := rfl
  have ht : (agentTestRoot 9).TraceID = 9 := rfl
  have hlt : (1 / 2 : ℚ) < 1 := by norm_num
  have hlog := score_recording_log (fixedRateDeps 1 (1 / 2)) Backend.empty []
    [agentTestRoot 9] (agentTestRoot 9) "" hne
  rw [hs, hb, ht, agentTestRoot_rate, sampleByRate_nine_one] at hlog
  have hsig : (fixedRateDeps 1 (1 / 2)).computeSignatureWithRootAndEnv
      [agentTestRoot 9] (agentTestRoot 9) "" = 8 := by decide
  rw [hsig] at hlog
  simp only [if_true, List.nil_append] at hlog
  refine ⟨?_, hlog, ?_, ?_⟩
  · rw [score_sample_sampled _ _ _ _ _ hne, hs, hm, hb, ht, agentTestRoot_rate,
      sampleByRate_nine_one, sampleByRate_nine_half]
    simp only [if_true, hlt]
  · rw [hlog]
    rfl
  · rw [score_sample_nonempty _ _ _ _ _ hne, hs, hm, hb, ht, agentTestRoot_rate,
      sampleByRate_nine_one]
    simp only [if_true, hlt]
    simp [fixedRateDeps, Backend.CountSample, Backend.CountSignature, Backend.empty]

/-- C13, amended: for every non-empty trace, core sampler, sampler state and call
log, the score policy adds exactly one `CountSample` call to the log of the
backend when the first rate decision `SampleByRate(t, p*s)` accepts the trace and
none when it rejects it; so there is exactly one such call whenever the policy
returns true. -/
theorem C13_count_sample_on_initial_accept {C : Type} (d : Deps C) (c : C)
    (log : List BackendCall) (trace : Trace) (root : Span) (env : String)
    (h : trace ≠ []) :
    countedSamples
        (ScoreSampler.Sample (recordingDeps d) ⟨(c, log)⟩ trace root env).s.sampler.2
      = countedSamples log
        + (if d.SampleByRate root.TraceID
              (GetTraceAppliedSampleRate root
                * ScoreSampler.sampleRate d ⟨c⟩ trace root env) = true
            then 1 else 0)
    ∧ ((ScoreSampler.Sample d ⟨c⟩ trace root env).sampled = true →
        countedSamples
          (ScoreSampler.Sample (recordingDeps d) ⟨(c, log)⟩ trace root env).s.sampler.2
        = countedSamples log + 1) := by
  have hlog := score_recording_log d c log trace root env h
  constructor
  · rw [hlog, countedSamples_append]
    split_ifs <;> rfl
  · intro hs
    rw [score_sample_sampled d ⟨c⟩ trace root env h] at hs
    by_cases ha : d.SampleByRate root.TraceID
        (GetTraceAppliedSampleRate root * ScoreSampler.sampleRate d ⟨c⟩ trace root env) = true
    · rw [hlog, countedSamples_append, if_pos ha]
      rfl
    · rw [if_neg ha] at hs
      exact absurd hs (by decide)

/-- The statement of amended C13 on the trace that the throttle rejects after an
initial accept. -/
theorem C13_count_sample_on_initial_accept_witness :
    [agentTestRoot 9] ≠ []
    ∧ countedSamples
        (ScoreSampler.Sample (recordingDeps (fixedRateDeps 1 (1 / 2))) ⟨(Backend.empty, [])⟩ [agentTestRoot 9] (agentTestRoot 9) "").s.sampler.2
      = countedSamples []
        + (if (fixedRateDeps 1 (1 / 2)).SampleByRate (agentTestRoot 9).TraceID
              (GetTraceAppliedSampleRate (agentTestRoot 9)
                * ScoreSampler.sampleRate (fixedRateDeps 1 (1 / 2)) ⟨Backend.empty⟩ [agentTestRoot 9] (agentTestRoot 9) "") = true
            then 1 else 0)
    ∧ ((ScoreSampler.Sample (fixedRateDeps 1 (1 / 2)) ⟨Backend.empty⟩ [agentTestRoot 9] (agentTestRoot 9) "").sampled = true →
        countedSamples
          (ScoreSampler.Sample (recordingDeps (fixedRateDeps 1 (1 / 2))) ⟨(Backend.empty, [])⟩ [agentTestRoot 9] (agentTestRoot 9) "").s.sampler.2
        = countedSamples [] + 1) :=
  ⟨by simp, C13_count_sample_on_initial_accept (fixedRateDeps 1 (1 / 2)) Backend.empty []
    [agentTestRoot 9] (agentTestRoot 9) "" (by simp)⟩

/-- C14: for every non-empty trace, core sampler, sampler state and call log, the
priority policy adds exactly one `CountSample` call to the log of the backend
when it returns true and none when it returns false. -/
theorem C14_priority_counts_kept_traces {C : Type} (d : Deps C) (c : C)
    (log : List BackendCall) (rates : RateByService) (trace : Trace) (root : Span)
    (env : String) (h : trace ≠ []) :
    countedSamples
        (PrioritySampler.Sample (recordingDeps d) ⟨(c, log), rates⟩
          trace root env).s.sampler.2
      = countedSamples log
        + (if (PrioritySampler.Sample d ⟨c, rates⟩ trace root env).sampled = true
            then 1 else 0) := by
  rw [priority_recording_log d c log rates trace root env h,
    priority_sample_sampled d ⟨c, rates⟩ trace root env h, countedSamples_append]
  by_cases hf : GoMap.index (0 : ℚ) root.Metrics samplingPriorityKey > 0
  · simp only [hf, decide_True, if_true]
    rfl
  · simp only [hf, decide_False, if_false, Bool.false_eq_true]
    rfl

/-- The statement of C14 on the one-span trace of the client test root. -/
theorem C14_priority_counts_kept_traces_witness :
    [clientTestRoot 1] ≠ []
    ∧ countedSamples
        (PrioritySampler.Sample (recordingDeps (fixedRateDeps (1 / 2) 1)) ⟨(Backend.empty, []), NewRateByService⟩
          [clientTestRoot 1] (clientTestRoot 1) "").s.sampler.2
      = countedSamples []
        + (if (PrioritySampler.Sample (fixedRateDeps (1 / 2) 1) ⟨Backend.empty, NewRateByService⟩ [clientTestRoot 1] (clientTestRoot 1) "").sampled = true
            then 1 else 0) :=
  ⟨by simp, C14_priority_counts_kept_traces (fixedRateDeps (1 / 2) 1) Backend.empty []
    NewRateByService [clientTestRoot 1] (clientTestRoot 1) "" (by simp)⟩

/-! ## The registry and local roots in the priority policy -/

/-- C15: the priority policy on the one-span trace of a local root
(`ParentID` 1, service `"mcnulty"`), with a sample rate of 0.5 and a new
registry.  After the call the registry holds 0.5 under `"service:mcnulty,env:"`,
an entry it did not have before; the client applier, on the same root and rate,
leaves the registry as it was. -/
theorem C15_local_root_writes_registry :
    (localRoot 1).ParentID ≠ 0
    ∧ NewRateByService.GetAll "service:mcnulty,env:" = none
    ∧ (PrioritySampler.Sample (fixedRateDeps (1 / 2) 1) ⟨Backend.empty, NewRateByService⟩
        [localRoot 1] (localRoot 1) "").s.rates.GetAll "service:mcnulty,env:"
      = some (1 / 2)
    ∧ (clientSampleRateApplier.ApplySampleRate NewRateByService (localRoot 1)
        (1 / 2)).rates.GetAll "service:mcnulty,env:" = none := by
  have hne : [localRoot 1] ≠ [] := by simp
  have hrate : GetTraceAppliedSampleRate (localRoot 1) = 1 := by
    have hk : SampleRateMetricKey ≠ "_sampling_priority_v1" := by decide
    simp [GetTraceAppliedSampleRate, localRoot, GoMap.lookup, hk]
  have hnew : NewRateByService.GetAll "service:mcnulty,env:" = none := by
    have hk : ("service:mcnulty,env:" : String) ≠ byServiceKey "" "" := by decide
    simp [RateByService.GetAll, NewRateByService, hk]
  refine ⟨by decide, hnew, ?_, ?_⟩
  · have hent := priority_sample_entry (fixedRateDeps (1 / 2) 1)
      ⟨Backend.empty, NewRateByService⟩ [localRoot 1] (localRoot 1) "" hne
    have hs : PrioritySampler.sampleRate (fixedRateDeps (1 / 2) 1)
        ⟨Backend.empty, NewRateByService⟩ [localRoot 1] (localRoot 1) "" = 1 / 2 := rfl
    have hm : PrioritySampler.maxTPSrate (fixedRateDeps (1 / 2) 1)
        ⟨Backend.empty, NewRateByService⟩ (localRoot 1) "" = 1 := rfl
    have hk : byServiceKey (localRoot 1).Service (rootEnv (localRoot 1))
        = "service:mcnulty,env:" := by decide
    rw [hs, hm, hrate, hk] at hent
    rw [hent]
    norm_num
  · rw [client_apply_rates]
    have hp : ¬ (localRoot 1).ParentID = 0 := by decide
    rw [if_neg hp]
    exact hnew

/-! ## Monotonicity of the cumulative rate -/

theorem run_rate (sbr : Nat → ℚ → Bool) (c : RateCall) (st : Span × RateByService) :
    GetTraceAppliedSampleRate (c.run sbr st).1
      = GetTraceAppliedSampleRate st.1 * c.sampleRate := by
  cases c with
  | agent r => exact agent_apply_rate sbr st.1 r
  | client r => exact client_apply_rate st.2 st.1 r
  | score r => simp [RateCall.run, RateCall.sampleRate, applySampleRate_eq, get_set_rate]
  | priority r => exact update_rate st.1 r st.2

theorem runCalls_append (sbr : Nat → ℚ → Bool) (cs₁ cs₂ : List RateCall)
    (st : Span × RateByService) :
    runCalls sbr (cs₁ ++ cs₂) st = runCalls sbr cs₂ (runCalls sbr cs₁ st) := by
  simp [runCalls, List.foldl_append]

theorem runCalls_single (sbr : Nat → ℚ → Bool) (c : RateCall)
    (st : Span × RateByService) : runCalls sbr [c] st = c.run sbr st := rfl

theorem runCalls_rate (sbr : Nat → ℚ → Bool) (cs : List RateCall)
    (st : Span × RateByService) :
    GetTraceAppliedSampleRate (runCalls sbr cs st).1
      = GetTraceAppliedSampleRate st.1 * (cs.map RateCall.sampleRate).prod := by
  induction cs generalizing st with
  | nil => simp [runCalls]
  | cons c cs ih =>
    have hstep : runCalls sbr (c :: cs) st = runCalls sbr cs (c.run sbr st) := rfl
    rw [hstep, ih, run_rate, List.map_cons, List.prod_cons, mul_assoc]

theorem rates_prod_bounds (cs : List RateCall)
    (hr : ∀ c ∈ cs, 0 ≤ c.sampleRate ∧ c.sampleRate ≤ 1) :
    0 ≤ (cs.map RateCall.sampleRate).prod ∧ (cs.map RateCall.sampleRate).prod ≤ 1 := by
  induction cs with
  | nil => simp
  | cons c cs ih =>
    have hc := hr c (List.mem_cons_self c cs)
    have hcs := ih (fun x hx => hr x (List.mem_cons_of_mem c hx))
    rw [List.map_cons, List.prod_cons]
    exact ⟨mul_nonneg hc.1 hcs.1, mul_le_one₀ hc.2 hcs.1 hcs.2⟩

/-- C16: the cumulative applied rate never increases.  For every root span whose
prior cumulative rate `p` is at least 0 and every sequence of calls of
`agentSampleRateApplier.ApplySampleRate`, `clientSampleRateApplier.ApplySampleRate`,
`applySampleRate` and `updateSampleRateForPriority` on that root, each with a
rate in `[0, 1]`: after each call the stored cumulative rate is its value before
the call times the rate of the call, is at most that value and is at least 0;
after the whole sequence it lies in `[0, p]`. -/
theorem C16_cumulative_rate_non_increasing (sbr : Nat → ℚ → Bool) (cs : List RateCall)
    (root : Span) (rates : RateByService)
    (hp : 0 ≤ GetTraceAppliedSampleRate root)
    (hr : ∀ c ∈ cs, 0 ≤ c.sampleRate ∧ c.sampleRate ≤ 1) :
    (∀ (pre : List RateCall) (c : RateCall) (post : List RateCall),
        cs = pre ++ c :: post →
        GetTraceAppliedSampleRate (runCalls sbr (pre ++ [c]) (root, rates)).1
          = GetTraceAppliedSampleRate (runCalls sbr pre (root, rates)).1 * c.sampleRate
        ∧ GetTraceAppliedSampleRate (runCalls sbr (pre ++ [c]) (root, rates)).1
          ≤ GetTraceAppliedSampleRate (runCalls sbr pre (root, rates)).1
        ∧ 0 ≤ GetTraceAppliedSampleRate (runCalls sbr (pre ++ [c]) (root, rates)).1)
    ∧ 0 ≤ GetTraceAppliedSampleRate (runCalls sbr cs (root, rates)).1
    ∧ GetTraceAppliedSampleRate (runCalls sbr cs (root, rates)).1
      ≤ GetTraceAppliedSampleRate root := by
  have hbounds : ∀ l : List RateCall, (∀ c ∈ l, 0 ≤ c.sampleRate ∧ c.sampleRate ≤ 1) →
      0 ≤ GetTraceAppliedSampleRate (runCalls sbr l (root, rates)).1
      ∧ GetTraceAppliedSampleRate (runCalls sbr l (root, rates)).1
        ≤ GetTraceAppliedSampleRate root := by
    intro l hl
    rw [runCalls_rate]
    have hb := rates_prod_bounds l hl
    exact ⟨mul_nonneg hp hb.1, mul_le_of_le_one_right hp hb.2⟩
  refine ⟨?_, hbounds cs hr⟩
  intro pre c post hcs
  have hpre : ∀ x ∈ pre, 0 ≤ x.sampleRate ∧ x.sampleRate ≤ 1 := by
    intro x hx
    exact hr x (by rw [hcs]; exact List.mem_append_left _ hx)
  have hc : 0 ≤ c.sampleRate ∧ c.sampleRate ≤ 1 :=
    hr c (by rw [hcs]; exact List.mem_append_right _ (List.mem_cons_self c post))
  have hb := hbounds pre hpre
  have hstep : GetTraceAppliedSampleRate (runCalls sbr (pre ++ [c]) (root, rates)).1
      = GetTraceAppliedSampleRate (runCalls sbr pre (root, rates)).1 * c.sampleRate := by
    rw [runCalls_append, runCalls_single, run_rate]
  rw [hstep]
  exact ⟨rfl, mul_le_of_le_one_right hb.1 hc.2, mul_nonneg hb.1 hc.1⟩

/-- The statement of C16 on the agent test root, for one call of each of the
four functions with the rates 0.4, 0.5, 1 and 0. -/
theorem C16_cumulative_rate_non_increasing_witness :
    0 ≤ GetTraceAppliedSampleRate (agentTestRoot 1)
    ∧ (∀ c ∈ [RateCall.agent (2 / 5), RateCall.client (1 / 2), RateCall.score 1, RateCall.priority 0],
        0 ≤ c.sampleRate ∧ c.sampleRate ≤ 1)
    ∧ (∀ (pre : List RateCall) (c : RateCall) (post : List RateCall),
        [RateCall.agent (2 / 5), RateCall.client (1 / 2), RateCall.score 1, RateCall.priority 0] = pre ++ c :: post →
        GetTraceAppliedSampleRate (runCalls SampleByRate (pre ++ [c]) ((agentTestRoot 1), NewRateByService)).1
          = GetTraceAppliedSampleRate (runCalls SampleByRate pre ((agentTestRoot 1), NewRateByService)).1 * c.sampleRate
        ∧ GetTraceAppliedSampleRate (runCalls SampleByRate (pre ++ [c]) ((agentTestRoot 1), NewRateByService)).1
          ≤ GetTraceAppliedSampleRate (runCalls SampleByRate pre ((agentTestRoot 1), NewRateByService)).1
        ∧ 0 ≤ GetTraceAppliedSampleRate (runCalls SampleByRate (pre ++ [c]) ((agentTestRoot 1), NewRateByService)).1)
    ∧ 0 ≤ GetTraceAppliedSampleRate (runCalls SampleByRate [RateCall.agent (2 / 5), RateCall.client (1 / 2), RateCall.score 1, RateCall.priority 0] ((agentTestRoot 1), NewRateByService)).1
    ∧ GetTraceAppliedSampleRate (runCalls SampleByRate [RateCall.agent (2 / 5), RateCall.client (1 / 2), RateCall.score 1, RateCall.priority 0] ((agentTestRoot 1), NewRateByService)).1
      ≤ GetTraceAppliedSampleRate (agentTestRoot 1) :=
  have hp : 0 ≤ GetTraceAppliedSampleRate (agentTestRoot 1) := by
    rw [agentTestRoot_rate]
    norm_num
  have hr : ∀ c ∈ [RateCall.agent (2 / 5), RateCall.client (1 / 2), RateCall.score 1, RateCall.priority 0],
      0 ≤ c.sampleRate ∧ c.sampleRate ≤ 1 := by
    intro c hc
    simp only [List.mem_cons, List.mem_singleton, List.not_mem_nil, or_false] at hc
    rcases hc with h | h | h | h <;> subst h <;> simp only [RateCall.sampleRate] <;> norm_num
  ⟨hp, hr, C16_cumulative_rate_non_increasing SampleByRate _ (agentTestRoot 1)
    NewRateByService hp hr⟩

/-! ## What the sampler changes on its input -/

theorem sameExceptRate_refl (root : Span) : sameExceptRate root root := by
  refine ⟨rfl, rfl, rfl, rfl, rfl, rfl, rfl, rfl, ?_⟩
  intro k
  split_ifs <;> rfl

theorem sameExceptRate_set (root : Span) (r : ℚ) :
    sameExceptRate root (SetTraceAppliedSampleRate root r) := by
  refine ⟨rfl, rfl, rfl, rfl, rfl, rfl, rfl, rfl, ?_⟩
  intro k
  by_cases hk : k = "_sample_rate"
  · rw [if_pos hk]
  · rw [if_neg hk]
    exact lookup_store_other root.Metrics SampleRateMetricKey k r hk

theorem sameExceptRate_trans (a b c : Span) (hab : sameExceptRate a b)
    (hbc : sameExceptRate b c) : sameExceptRate a c := by
  obtain ⟨h1, h2, h3, h4, h5, h6, h7, h8, h9⟩ := hab
  obtain ⟨g1, g2, g3, g4, g5, g6, g7, g8, g9⟩ := hbc
  refine ⟨g1.trans h1, g2.trans h2, g3.trans h3, g4.trans h4, g5.trans h5, g6.trans h6,
    g7.trans h7, g8.trans h8, ?_⟩
  intro k
  by_cases hk : k = "_sample_rate"
  · rw [if_pos hk]
  · have hb := h9 k
    have hc := g9 k
    rw [if_neg hk] at hb hc ⊢
    exact hc.trans hb

theorem sameExceptRate_update (root : Span) (r : ℚ) (rates : RateByService) :
    sameExceptRate root (updateSampleRateForPriority root r rates).1 :=
  sameExceptRate_set root (GetTraceAppliedSampleRate root * r)

theorem sameExceptRate_score {C : Type} (d : Deps C) (s : ScoreSampler C)
    (trace : Trace) (root : Span) (env : String) :
    sameExceptRate root (ScoreSampler.Sample d s trace root env).root := by
  by_cases h : trace = []
  · subst h
    simp only [ScoreSampler.Sample, List.length_nil, if_true]
    exact sameExceptRate_refl root
  · rw [score_sample_nonempty d s trace root env h]
    split_ifs
    · exact sameExceptRate_trans _ _ _ (sameExceptRate_set root _) (sameExceptRate_set _ _)
    · exact sameExceptRate_set root _
    · exact sameExceptRate_set root _

theorem sameExceptRate_priority {C : Type} (d : Deps C) (s : PrioritySampler C)
    (trace : Trace) (root : Span) (env : String) :
    sameExceptRate root (PrioritySampler.Sample d s trace root env).root := by
  by_cases h : trace = []
  · subst h
    simp only [PrioritySampler.Sample, List.length_nil, if_true]
    exact sameExceptRate_refl root
  · have hr := congrArg Prod.fst (priority_sample_root d s trace root env h)
    simp only at hr
    rw [hr]
    split_ifs
    · exact sameExceptRate_trans _ _ _ (sameExceptRate_update root _ _)
        (sameExceptRate_update _ _ _)
    · exact sameExceptRate_update root _ _

theorem traceAfter_getElem? (trace : Trace) (i j : Nat) (rootAfter : Span) :
    (traceAfter trace i rootAfter)[j]?
      = if j = i then ((trace)[j]?).map (fun _ => rootAfter) else (trace)[j]? := by
  unfold traceAfter
  by_cases hji : j = i
  · subst hji
    rw [if_pos rfl]
    by_cases hlt : j < trace.length
    · simp [hlt]
    · have hle : trace.length ≤ j := Nat.le_of_not_lt hlt
      rw [List.getElem?_eq_none hle, List.getElem?_eq_none (by simpa using hle)]
      rfl
  · rw [if_neg hji]
    exact List.getElem?_set_ne (fun h => hji h.symm)

/-- C17: the sole mutation of the input.  For every trace, root span, env, rate
and sampler state, the root span returned by either `ApplySampleRate`, by
`ScoreSampler.Sample` and by `PrioritySampler.Sample` is the root passed in
except possibly for its metric `"_sample_rate"`: `TraceID`, `SpanID`,
`ParentID`, `Start`, `Duration`, `Service`, `Type` and `Meta` are equal, and
every metric under another key, `"_sampling_priority_v1"` among them, reads the
same.  The functions assign through `root` only, so with `root` pointing at
`trace[i]` every span of the trace at another index `j` is the same after the
call. -/
theorem C17_only_rate_metric_changes {C : Type} (d : Deps C) (sc : ScoreSampler C)
    (ps : PrioritySampler C) (rates : RateByService) (trace : Trace) (root : Span)
    (env : String) (sampleRate : ℚ) (i j : Nat) :
    sameExceptRate root
        (agentSampleRateApplier.ApplySampleRate d.SampleByRate root sampleRate).root
    ∧ sameExceptRate root
        (clientSampleRateApplier.ApplySampleRate rates root sampleRate).root
    ∧ sameExceptRate root (ScoreSampler.Sample d sc trace root env).root
    ∧ sameExceptRate root (PrioritySampler.Sample d ps trace root env).root
    ∧ (ScoreSampler.Sample d sc trace root env).root.Metrics.lookup "_sampling_priority_v1"
      = root.Metrics.lookup "_sampling_priority_v1"
    ∧ (PrioritySampler.Sample d ps trace root env).root.Metrics.lookup
        "_sampling_priority_v1" = root.Metrics.lookup "_sampling_priority_v1"
    ∧ (traceAfter trace i (ScoreSampler.Sample d sc trace root env).root)[j]?
      = (if j = i then
          ((trace)[j]?).map (fun _ => (ScoreSampler.Sample d sc trace root env).root)
        else (trace)[j]?)
    ∧ (traceAfter trace i (PrioritySampler.Sample d ps trace root env).root)[j]?
      = (if j = i then
          ((trace)[j]?).map (fun _ => (PrioritySampler.Sample d ps trace root env).root)
        else (trace)[j]?) := by
  have hk : ¬ ("_sampling_priority_v1" : String) = "_sample_rate" := by decide
  have hsc := sameExceptRate_score d sc trace root env
  have hps := sameExceptRate_priority d ps trace root env
  refine ⟨sameExceptRate_set root _, sameExceptRate_set root _, hsc, hps, ?_, ?_,
    traceAfter_getElem? trace i j _, traceAfter_getElem? trace i j _⟩
  · have h := hsc.2.2.2.2.2.2.2.2 "_sampling_priority_v1"
    rw [if_neg hk] at h
    exact h
  · have h := hps.2.2.2.2.2.2.2.2 "_sampling_priority_v1"
    rw [if_neg hk] at h
    exact h

/-! ## The HTTP receiver -/

theorem forwardSpans_normalized {Request Bytes Err : Type}
    (d : ReceiverDeps Request Bytes Err) (spans : List Span) :
    ∀ s ∈ HTTPReceiver.forwardSpans d spans,
      ∃ s₀ ∈ spans, d.Normalize s₀ = (s, none) := by
  induction spans with
  | nil =>
    intro s hs
    simp [HTTPReceiver.forwardSpans] at hs
  | cons a as ih =>
    intro s hs
    unfold HTTPReceiver.forwardSpans at hs
    cases hn : d.Normalize a with
    | mk a' e =>
      cases e with
      | some err =>
        simp only [hn] at hs
        obtain ⟨s₀, hmem, heq⟩ := ih s hs
        exact ⟨s₀, List.mem_cons_of_mem a hmem, heq⟩
      | none =>
        simp only [hn, List.mem_cons] at hs
        rcases hs with h | h
        · exact ⟨a, List.mem_cons_self a as, by rw [hn, h]⟩
        · obtain ⟨s₀, hmem, heq⟩ := ih s h
          exact ⟨s₀, List.mem_cons_of_mem a hmem, heq⟩

/-- C19: `handleSpan` sends the decoded span on `l.out` whatever `Normalize`
returns, error or not; a body that cannot be read or decoded forwards nothing.
On a receiver whose `Normalize` rejects a span without a service name, a `/span`
request carrying such a span forwards it, while a `/spans` request carrying the
same span drops it. -/
theorem C19_handleSpan_forwards_without_check {Request Bytes Err : Type}
    (d : ReceiverDeps Request Bytes Err) (r : Request) :
    (HTTPReceiver.handleSpan d r).out
      = (match d.ReadAll r with
        | .error _ => []
        | .ok body =>
          match d.UnmarshalSpan body with
          | .error _ => []
          | .ok s => [(d.Normalize s).1])
    ∧ (strictDeps.Normalize unnamedSpan).2 = some "empty service"
    ∧ (HTTPReceiver.handleSpan strictDeps [unnamedSpan]).out = [unnamedSpan]
    ∧ (HTTPReceiver.handleSpans strictDeps [unnamedSpan]).out = [] := by
  refine ⟨?_, rfl, rfl, rfl⟩
  unfold HTTPReceiver.handleSpan
  cases d.ReadAll r with
  | error e => rfl
  | ok body =>
    simp only []
    cases d.UnmarshalSpan body with
    | error e => rfl
    | ok s => rfl

/-! ## The priority update and the client applier -/

theorem index_env_eq_rootEnv (root : Span) :
    GoMap.index "" root.Meta "env" = rootEnv root := by
  unfold GoMap.index GoMap.lookup rootEnv
  cases root.Meta with
  | none => rfl
  | some tags =>
    simp only []
    cases tags "env" with
    | none => rfl
    | some env => rfl

theorem update_root_eq_client_root (root : Span) (r : ℚ) (rates : RateByService) :
    (updateSampleRateForPriority root r rates).1
      = (clientSampleRateApplier.ApplySampleRate rates root r).root := rfl

theorem client_rates_eq_update (root : Span) (r : ℚ) (rates : RateByService) :
    (clientSampleRateApplier.ApplySampleRate rates root r).rates
      = if root.ParentID = 0 then (updateSampleRateForPriority root r rates).2
        else rates := by
  rw [client_apply_rates, update_rates_rootEnv, index_env_eq_rootEnv]

/-- C21: for every root span with `ParentID == 0`, every rate and every
registry, `updateSampleRateForPriority(root, rate, rates)` and
`clientSampleRateApplier.ApplySampleRate(root, rate)` on the same registry leave
the same root span and the same registry: the cumulative rate is `p * rate` and
the entry written is the one of `(root.Service, env)`, with the empty env when
`root.Meta` is nil or has no `env` tag.  For every root span the two leave the
same root; they differ in that the applier returns the priority decision and,
when `ParentID != 0`, leaves the registry as it was. -/
theorem C21_priority_update_refines_client_applier (root : Span) (sampleRate : ℚ)
    (rates : RateByService) (h : root.ParentID = 0) :
    (updateSampleRateForPriority root sampleRate rates).1
      = (clientSampleRateApplier.ApplySampleRate rates root sampleRate).root
    ∧ (updateSampleRateForPriority root sampleRate rates).2
      = (clientSampleRateApplier.ApplySampleRate rates root sampleRate).rates
    ∧ (updateSampleRateForPriority root sampleRate rates).1.Metrics.lookup "_sample_rate"
      = some (GetTraceAppliedSampleRate root * sampleRate)
    ∧ (updateSampleRateForPriority root sampleRate rates).2
      = rates.Set root.Service (rootEnv root) (GetTraceAppliedSampleRate root * sampleRate)
    ∧ (clientSampleRateApplier.ApplySampleRate rates root sampleRate).sampled
      = decide (GoMap.index (0 : ℚ) root.Metrics "_sampling_priority_v1" > 0)
    ∧ (∀ (other : Span) (registry : RateByService),
        (updateSampleRateForPriority other sampleRate registry).1
          = (clientSampleRateApplier.ApplySampleRate registry other sampleRate).root
        ∧ (clientSampleRateApplier.ApplySampleRate registry other sampleRate).rates
          = if other.ParentID = 0 then (updateSampleRateForPriority other sampleRate registry).2
            else registry) := by
  have hrates := client_rates_eq_update root sampleRate rates
  rw [if_pos h] at hrates
  refine ⟨rfl, hrates.symm, update_metric root sampleRate rates,
    update_rates_rootEnv root sampleRate rates, ?_, ?_⟩
  · simp only [clientSampleRateApplier.ApplySampleRate, priority_set_rate]
    rfl
  · intro other registry
    exact ⟨rfl, client_rates_eq_update other sampleRate registry⟩

/-- The statement of C21 on the client test root, whose `Meta` map is nil, with
a rate of 0.4 and a new registry. -/
theorem C21_priority_update_refines_client_applier_witness :
    (clientTestRoot 1).ParentID = 0
    ∧ (updateSampleRateForPriority (clientTestRoot 1) (2 / 5) NewRateByService).1
      = (clientSampleRateApplier.ApplySampleRate NewRateByService (clientTestRoot 1) (2 / 5)).root
    ∧ (updateSampleRateForPriority (clientTestRoot 1) (2 / 5) NewRateByService).2
      = (clientSampleRateApplier.ApplySampleRate NewRateByService (clientTestRoot 1) (2 / 5)).rates
    ∧ (updateSampleRateForPriority (clientTestRoot 1) (2 / 5) NewRateByService).1.Metrics.lookup "_sample_rate"
      = some (GetTraceAppliedSampleRate (clientTestRoot 1) * (2 / 5))
    ∧ (updateSampleRateForPriority (clientTestRoot 1) (2 / 5) NewRateByService).2
      = NewRateByService.Set (clientTestRoot 1).Service (rootEnv (clientTestRoot 1)) (GetTraceAppliedSampleRate (clientTestRoot 1) * (2 / 5))
    ∧ (clientSampleRateApplier.ApplySampleRate NewRateByService (clientTestRoot 1) (2 / 5)).sampled
      = decide (GoMap.index (0 : ℚ) (clientTestRoot 1).Metrics "_sampling_priority_v1" > 0)
    ∧ (∀ (other : Span) (registry : RateByService),
        (updateSampleRateForPriority other (2 / 5) registry).1
          = (clientSampleRateApplier.ApplySampleRate registry other (2 / 5)).root
        ∧ (clientSampleRateApplier.ApplySampleRate registry other (2 / 5)).rates
          = if other.ParentID = 0 then (updateSampleRateForPriority other (2 / 5) registry).2
            else registry) :=
  ⟨rfl, C21_priority_update_refines_client_applier (clientTestRoot 1) (2 / 5)
    NewRateByService rfl⟩

end Sampler
